import Mathlib

/-!
# Verification of the codex-browser action orchestration engine

Shallow embedding of `src/cli.ts` (codex-browser): the template resolver,
error classifier, input validation, and the orchestration loop of
`runBrowser`, together with theorems settling the specification claims.

JavaScript values stored in the variable store are modelled by `JsValue`
(JSON-compatible values plus `undefined`); machine strings are Lean
`String`s; the browser capability is an explicit parameter (`exec`), and
thrown JavaScript errors are modelled by `JsError`.
-/

namespace CodexBrowser

/-- A JavaScript value as it can appear in the variable store or in an
action result's `data` record: `undefined`, `null`, booleans, numbers
(modelled as integers), strings, objects (field lists) and arrays. -/
inductive JsValue where
  | vUndef : JsValue
  | vNull : JsValue
  | vBool : Bool → JsValue
  | vNum : Int → JsValue
  | vStr : String → JsValue
  | vObj : List (String × JsValue) → JsValue
  | vArr : List JsValue → JsValue

/-- The variable store `vars: Record<string, unknown>` of `runBrowser`. -/
abbrev VarStore := List (String × JsValue)

/-- JavaScript property read `vars[name]` on a record, `none` when the
record has no own property of that name. -/
def lookupVar (vars : VarStore) (name : String) : Option JsValue :=
  match vars with
  | [] => none
  | (m, w) :: rest => if m = name then some w else lookupVar rest name

/-- JavaScript property write `vars[name] = v`: replaces the binding if the
name is already present, otherwise appends it. -/
def setVar (vars : VarStore) (name : String) (v : JsValue) : VarStore :=
  match vars with
  | [] => [(name, v)]
  | (m, w) :: rest => if m = name then (name, v) :: rest else (m, w) :: setVar rest name v

/-- The `ErrorCode` union type of `cli.ts`. -/
inductive ErrorCode where
  | INVALID_INPUT
  | TEMPLATE_ERROR
  | INTERRUPTED
  | PLAYWRIGHT_TIMEOUT
  | PLAYWRIGHT_ERROR
  | UNKNOWN
deriving DecidableEq, Repr

/-- The `CodexBrowserError` class: an error carrying an explicit code. -/
structure CodexBrowserError where
  code : ErrorCode
  message : String
deriving DecidableEq, Repr

/-- Character class `[\w$.-]` of `TEMPLATE_REGEX` (JS `\w` is
`[A-Za-z0-9_]`). -/
def isPathChar (c : Char) : Bool :=
  c.isAlpha || c.isDigit || c == '_' || c == '$' || c == '.' || c == '-'

/-- Whitespace as matched by the regex class `\s`. -/
def isJsSpace (c : Char) : Bool :=
  c == ' ' || c == '\t' || c == '\n' || c == '\r' || c == '\x0b' || c == '\x0c' || c == ' '

/-- `rawPath.split('.')` on the character list: every dot separates. -/
def splitDotsAux : List Char → List Char → List String
  | [], acc => [String.mk acc.reverse]
  | '.' :: rest, acc => String.mk acc.reverse :: splitDotsAux rest []
  | c :: rest, acc => splitDotsAux rest (c :: acc)

/-- `rawPath.split('.').filter(Boolean)`: the dotted-path segments of a
template path, empty segments dropped. -/
def pathParts (rawPath : String) : List String :=
  (splitDotsAux rawPath.data []).filter (fun s => !s.isEmpty)

/-- `value.includes('{{')`: does the character list contain two consecutive
opening braces? -/
def containsBraces : List Char → Bool
  | [] => false
  | c :: rest => (c == '{' && (rest.head?.any (fun d => d == '{'))) || containsBraces rest

/-- Is `s` the canonical decimal form of an array index (as used by JS
array own-property lookup): nonempty, all digits, no superfluous leading
zero? -/
def isCanonicalIndex (s : List Char) : Bool :=
  !s.isEmpty && s.all Char.isDigit && (s.length == 1 || s.head?.any (fun c => c != '0'))

/-- Numeric value of a digit list. -/
def digitsToNat : List Char → Nat → Nat
  | [], acc => acc
  | c :: rest, acc => digitsToNat rest (acc * 10 + (c.toNat - '0'.toNat))

/-- `readVarPath` of `cli.ts`: walk the dotted segments into the value;
each segment must be an own property of the current object (JS arrays have
their canonical indices and `length` as own properties), otherwise the walk
fails with `TEMPLATE_ERROR` "Template path not found". -/
def readVarPath (value : JsValue) (parts : List String) (pathLabel : String) :
    Except CodexBrowserError JsValue :=
  match parts with
  | [] => .ok value
  | part :: rest =>
    match value with
    | .vObj fields =>
      match lookupVar fields part with
      | some next => readVarPath next rest pathLabel
      | none => .error ⟨.TEMPLATE_ERROR, "Template path not found: " ++ pathLabel⟩
    | .vArr elems =>
      if part == "length" then
        readVarPath (.vNum elems.length) rest pathLabel
      else if isCanonicalIndex part.data && digitsToNat part.data 0 < elems.length then
        readVarPath (elems.getD (digitsToNat part.data 0) .vUndef) rest pathLabel
      else
        .error ⟨.TEMPLATE_ERROR, "Template path not found: " ++ pathLabel⟩
    | _ => .error ⟨.TEMPLATE_ERROR, "Template path not found: " ++ pathLabel⟩

/-- `String(resolved)` on a primitive (non-object, non-null) value. -/
def jsStringOfPrim : JsValue → String
  | .vBool true => "true"
  | .vBool false => "false"
  | .vNum n => toString n
  | .vStr s => s
  | _ => ""

/-- Is the value a JS object (truthy and of object type): arrays and plain
objects, not `null`. -/
def isNonPrimitive : JsValue → Bool
  | .vObj _ => true
  | .vArr _ => true
  | _ => false

/-- Is the value `null` or `undefined`? -/
def isEmptyValue : JsValue → Bool
  | .vNull => true
  | .vUndef => true
  | _ => false

/-- The replacement callback of `resolveTemplate` for one matched raw path:
split into segments, reject an empty path, walk with `readVarPath`, reject
`null`/`undefined` and non-primitive values, else stringify. -/
def substPath (vars : VarStore) (rawPath : String) : Except CodexBrowserError String :=
  let parts := pathParts rawPath
  if parts.isEmpty then
    .error ⟨.TEMPLATE_ERROR, "Template path cannot be empty"⟩
  else
    match readVarPath (.vObj vars) parts rawPath with
    | .error e => .error e
    | .ok resolved =>
      if isEmptyValue resolved then
        .error ⟨.TEMPLATE_ERROR, "Template path resolves to empty value: " ++ rawPath⟩
      else if isNonPrimitive resolved then
        .error ⟨.TEMPLATE_ERROR, "Template path resolves to a non-primitive: " ++ rawPath⟩
      else
        .ok (jsStringOfPrim resolved)

/-- One attempt of `TEMPLATE_REGEX` (`\{\{\s*([\w$.-]+)\s*\}\}`) at the
head of the character list: on success returns the captured raw path and
the characters following the match.  The greedy classes `\s` and `[\w$.-]`
are disjoint from each other and from `}`, so the regex engine's
backtracking can never produce a match the greedy scan misses. -/
def tryMatch : List Char → Option (String × List Char)
  | '{' :: '{' :: rest =>
    let rest1 := rest.dropWhile isJsSpace
    let pathChars := rest1.takeWhile isPathChar
    if pathChars.isEmpty then none
    else
      match (rest1.dropWhile isPathChar).dropWhile isJsSpace with
      | '}' :: '}' :: tail => some (String.mk pathChars, tail)
      | _ => none
  | _ => none

/-- `value.replace(TEMPLATE_REGEX, cb)` scanning left to right, with
explicit fuel (one unit per consumed character suffices; callers pass the
list length). -/
def scanFuel (vars : VarStore) : Nat → List Char → Except CodexBrowserError (List Char)
  | _, [] => .ok []
  | 0, _ :: _ => .ok []
  | fuel + 1, c :: rest =>
    match tryMatch (c :: rest) with
    | some (rawPath, tail) =>
      match substPath vars rawPath with
      | .error e => .error e
      | .ok repl =>
        match scanFuel vars fuel tail with
        | .error e => .error e
        | .ok out => .ok (repl.data ++ out)
    | none =>
      match scanFuel vars fuel rest with
      | .error e => .error e
      | .ok out => .ok (c :: out)

/-- The raw paths of all placeholders matched by the left-to-right scan
(with fuel, as in `scanFuel`). -/
def pathsFuel : Nat → List Char → List String
  | _, [] => []
  | 0, _ :: _ => []
  | fuel + 1, c :: rest =>
    match tryMatch (c :: rest) with
    | some (rawPath, tail) => rawPath :: pathsFuel fuel tail
    | none => pathsFuel fuel rest

/-- The raw paths of all placeholders the template regex matches in `l`. -/
def templatePathsL (l : List Char) : List String :=
  pathsFuel l.length l

/-- The raw paths of all placeholders in a string. -/
def templatePaths (s : String) : List String :=
  templatePathsL s.data

/-- `resolveTemplate` of `cli.ts`: short-circuit when the string contains
no `{{`, else replace every regex match via the substitution callback,
propagating the first thrown `TEMPLATE_ERROR`. -/
def resolveTemplate (value : String) (vars : VarStore) : Except CodexBrowserError String :=
  if containsBraces value.data then
    match scanFuel vars value.data.length value.data with
    | .error e => .error e
    | .ok out => .ok (String.mk out)
  else
    .ok value

/-- JS own-property read `value[part]` guarded by
`Object.prototype.hasOwnProperty.call(value, part)`, `none` when `part` is
not an own property of `value` (primitives, `null` and `undefined` have no
own properties reachable here; arrays own their canonical indices and
`length`). -/
def getOwnProp : JsValue → String → Option JsValue
  | .vObj fields, part => lookupVar fields part
  | .vArr elems, part =>
    if part == "length" then some (.vNum elems.length)
    else if isCanonicalIndex part.data && digitsToNat part.data 0 < elems.length then
      some (elems.getD (digitsToNat part.data 0) .vUndef)
    else none
  | _, _ => none

/-- Modelled from the spec: "Path resolution walks the dotted segments into
the stored value (starting from the named variable); each segment must
exist as an own property of the current object", failing otherwise.  The
walk starts at the variable store viewed as an object. -/
def specWalk : JsValue → List String → Option JsValue
  | value, [] => some value
  | value, part :: rest =>
    match getOwnProp value part with
    | some next => specWalk next rest
    | none => none

/-- Modelled from the spec: a placeholder's resolution fails exactly when
some dotted-path segment is not an own property of the current object, or
the fully resolved value is `null`/absent, or it is a non-primitive
(object/array). -/
def specPlaceholderFails (vars : VarStore) (rawPath : String) : Bool :=
  match specWalk (.vObj vars) (pathParts rawPath) with
  | none => true
  | some v => isEmptyValue v || isNonPrimitive v

/-- Modelled from the spec: the substituted text for one placeholder — the
string form of the resolved scalar value, `none` when resolution of the
placeholder fails. -/
def specSubst (vars : VarStore) (rawPath : String) : Option String :=
  match specWalk (.vObj vars) (pathParts rawPath) with
  | none => none
  | some v => if isEmptyValue v || isNonPrimitive v then none else some (jsStringOfPrim v)

/-- Modelled from the spec: the rendering of a template — each placeholder
replaced by the string form of its resolved scalar value, `none` as soon as
any placeholder fails (same fuel discipline as `scanFuel`). -/
def specRenderFuel (vars : VarStore) : Nat → List Char → Option (List Char)
  | _, [] => some []
  | 0, _ :: _ => some []
  | fuel + 1, c :: rest =>
    match tryMatch (c :: rest) with
    | some (rawPath, tail) =>
      match specSubst vars rawPath with
      | none => none
      | some repl => (specRenderFuel vars fuel tail).map (fun out => repl.data ++ out)
    | none => (specRenderFuel vars fuel rest).map (fun out => c :: out)

/-- Modelled from the spec: rendering of a whole template string. -/
def specRender (vars : VarStore) (s : String) : Option String :=
  if containsBraces s.data then
    (specRenderFuel vars s.data.length s.data).map String.mk
  else
    some s

/-- A thrown JavaScript error as seen by `inferErrorCode`: either a
`CodexBrowserError` instance, a generic error object with a `name` and
`message`, or a thrown non-object value. -/
inductive JsError where
  | codex : CodexBrowserError → JsError
  | generic : String → String → JsError
  | nonError : String → JsError
deriving DecidableEq, Repr

/-- Does the haystack contain the needle as a contiguous sublist?
(Models JS `String.prototype.includes`.) -/
def containsSub (needle : List Char) : List Char → Bool
  | [] => needle.isEmpty
  | c :: rest => needle.isPrefixOf (c :: rest) || containsSub needle rest

/-- `name.toLowerCase()` on the character level. -/
def toLowerChars (l : List Char) : List Char :=
  l.map Char.toLower

/-- `inferErrorCode` of `cli.ts`: a `CodexBrowserError` keeps its explicit
code; otherwise an error object named `TimeoutError` is a Playwright
timeout; otherwise a name containing `playwright` (case-insensitively) is
a Playwright error; anything else is unknown. -/
def inferErrorCode : JsError → ErrorCode
  | .codex e => e.code
  | .generic name _ =>
    if name == "TimeoutError" then .PLAYWRIGHT_TIMEOUT
    else if containsSub "playwright".data (toLowerChars name.data) then .PLAYWRIGHT_ERROR
    else .UNKNOWN
  | .nonError _ => .UNKNOWN

/-- The `Action` union type of `cli.ts`: ten kinds, each with its
kind-specific fields plus the optional `saveAs` name.  Enumerated string
fields (`waitUntil`, `state`, `button`) are kept as validated strings. -/
inductive Action where
  | goto (url : String) (waitUntil : Option String) (timeoutMs : Option Int) (saveAs : Option String)
  | waitFor (selector : String) (state : Option String) (timeoutMs : Option Int) (saveAs : Option String)
  | waitForLoadState (state : Option String) (timeoutMs : Option Int) (saveAs : Option String)
  | click (selector : String) (button : Option String) (clickCount : Option Int)
      (delayMs : Option Int) (timeoutMs : Option Int) (saveAs : Option String)
  | fill (selector : String) (text : String) (timeoutMs : Option Int) (saveAs : Option String)
  | press (key : String) (selector : Option String) (timeoutMs : Option Int) (saveAs : Option String)
  | screenshot (path : String) (fullPage : Option Bool) (saveAs : Option String)
  | evaluate (expression : String) (saveAs : Option String)
  | setViewport (width : Int) (height : Int) (saveAs : Option String)
  | wait (ms : Int) (saveAs : Option String)
deriving DecidableEq, Repr

/-- The `type` discriminant string of an action. -/
def Action.kind : Action → String
  | .goto .. => "goto"
  | .waitFor .. => "waitFor"
  | .waitForLoadState .. => "waitForLoadState"
  | .click .. => "click"
  | .fill .. => "fill"
  | .press .. => "press"
  | .screenshot .. => "screenshot"
  | .evaluate .. => "evaluate"
  | .setViewport .. => "setViewport"
  | .wait .. => "wait"

/-- The `saveAs` field of an action. -/
def Action.saveAs : Action → Option String
  | .goto _ _ _ s => s
  | .waitFor _ _ _ s => s
  | .waitForLoadState _ _ s => s
  | .click _ _ _ _ _ s => s
  | .fill _ _ _ s => s
  | .press _ _ _ s => s
  | .screenshot _ _ s => s
  | .evaluate _ s => s
  | .setViewport _ _ s => s
  | .wait _ s => s

/-- The JS truthiness test `if (action.saveAs)`: the name must be present
and non-empty for the save branch to run. -/
def saveAsTruthy (a : Action) : Option String :=
  match a.saveAs with
  | some n => if n.isEmpty then none else some n
  | none => none

/-- `resolveActionTemplates` of `cli.ts`: template-resolve exactly the
string fields the source resolves (`goto.url`, `waitFor.selector`,
`click.selector`, `fill.selector` and `fill.text`, `press.key` and its
optional selector when truthy, `screenshot.path`, `evaluate.expression`);
`waitForLoadState`, `setViewport` and `wait` pass through unchanged. -/
def resolveActionTemplates (action : Action) (vars : VarStore) :
    Except CodexBrowserError Action :=
  match action with
  | .goto url w t s =>
    match resolveTemplate url vars with
    | .error e => .error e
    | .ok u => .ok (.goto u w t s)
  | .waitFor sel st t s =>
    match resolveTemplate sel vars with
    | .error e => .error e
    | .ok r => .ok (.waitFor r st t s)
  | .waitForLoadState .. => .ok action
  | .click sel b cc d t s =>
    match resolveTemplate sel vars with
    | .error e => .error e
    | .ok r => .ok (.click r b cc d t s)
  | .fill sel text t s =>
    match resolveTemplate sel vars with
    | .error e => .error e
    | .ok rsel =>
      match resolveTemplate text vars with
      | .error e => .error e
      | .ok rtext => .ok (.fill rsel rtext t s)
  | .press key sel t s =>
    match resolveTemplate key vars with
    | .error e => .error e
    | .ok rkey =>
      match sel with
      | some str =>
        if str.isEmpty then .ok (.press rkey none t s)
        else
          match resolveTemplate str vars with
          | .error e => .error e
          | .ok rsel => .ok (.press rkey (some rsel) t s)
      | none => .ok (.press rkey none t s)
  | .screenshot p fp s =>
    match resolveTemplate p vars with
    | .error e => .error e
    | .ok rp => .ok (.screenshot rp fp s)
  | .evaluate expr s =>
    match resolveTemplate expr vars with
    | .error e => .error e
    | .ok rexpr => .ok (.evaluate rexpr s)
  | .setViewport .. => .ok action
  | .wait .. => .ok action

/-- An `ActionResult` of `cli.ts`: the kind tag, the success flag, the
optional `savedAs` name and the optional `data` record. -/
structure ActionResult where
  type : String
  ok : Bool
  savedAs : Option String
  data : Option (List (String × JsValue))

/-- An `ActionMetaResult`: an `ActionResult` enriched with the action's
index and elapsed milliseconds. -/
structure ActionMetaResult where
  type : String
  ok : Bool
  savedAs : Option String
  data : Option (List (String × JsValue))
  index : Nat
  timingMs : Int

/-- `getSavedValue` of `cli.ts`: absent `data` saves `undefined`; an
`evaluate` action saves the inner `result` field of its data record
(`undefined` when that field is absent); every other kind saves the full
data record. -/
def getSavedValue (action : Action) (result : ActionResult) : JsValue :=
  match result.data with
  | none => .vUndef
  | some data =>
    match action with
    | .evaluate .. => (lookupVar data "result").getD .vUndef
    | _ => .vObj data

/-- Modelled from the spec: the engine-defined "saved value" for an
action kind — the inner `result` field for evaluate-script, the full
output record otherwise. -/
def specSavedValue (r : Action) (data : List (String × JsValue)) : JsValue :=
  match r with
  | .evaluate _ _ => (lookupVar data "result").getD .vUndef
  | _ => .vObj data

/-- Outcome of one invocation of the browser capability (`runAction`):
either a success carrying the result's `data` record, or a thrown error. -/
inductive ExecOutcome where
  | success : Option (List (String × JsValue)) → ExecOutcome
  | failure : JsError → ExecOutcome

/-- The mutable state of `runBrowser`'s loop: the variable store, the
accumulated results, and the failure-attribution registers
`currentActionIndex` (initially `-1`) and `currentResolvedAction`. -/
structure RunState where
  vars : VarStore
  results : List ActionMetaResult
  currentActionIndex : Int
  currentResolvedAction : Option Action

/-- The state at the top of `runBrowser`'s loop. -/
def initState : RunState :=
  { vars := [], results := [], currentActionIndex := -1, currentResolvedAction := none }

/-- The outcome of a run: the success payload (results and final variable
store) or the failure report thrown by `serializeError` (the underlying
error, its classified code, `stepIndex`, the attributed action, and
`resultsSoFar`). -/
inductive RunOutcome where
  | success : List ActionMetaResult → VarStore → RunOutcome
  | failure : JsError → ErrorCode → Option Nat → Option Action → List ActionMetaResult → RunOutcome

/-- The failure report built in `runBrowser`'s catch block: code from
`inferErrorCode`, `stepIndex` only when `currentActionIndex >= 0`, the
current resolved action, and the accumulated results. -/
def mkFailureReport (err : JsError) (st : RunState) : RunOutcome :=
  .failure err (inferErrorCode err)
    (if 0 ≤ st.currentActionIndex then some st.currentActionIndex.toNat else none)
    st.currentResolvedAction st.results

/-- One iteration of `runBrowser`'s loop at `index`: check the interrupt
flag, record the index, resolve templates (recording the resolved action
only on success), invoke the browser capability, and on success perform
the `saveAs` store write and append the timed, indexed result.  A thrown
error becomes the failure report via the catch block. -/
def runStep (exec : Nat → Action → ExecOutcome) (timing : Nat → Int) (intr : Nat → Bool)
    (action : Action) (index : Nat) (st : RunState) : Except RunOutcome RunState :=
  if intr index then
    .error (mkFailureReport (.codex ⟨.INTERRUPTED, "Interrupted"⟩) st)
  else
    let st1 : RunState := { st with currentActionIndex := (index : Int) }
    match resolveActionTemplates action st1.vars with
    | .error e => .error (mkFailureReport (.codex e) st1)
    | .ok resolved =>
      let st2 : RunState := { st1 with currentResolvedAction := some resolved }
      match exec index resolved with
      | .failure err => .error (mkFailureReport err st2)
      | .success data =>
        let result : ActionResult := { type := resolved.kind, ok := true, savedAs := none, data := data }
        let saved := match saveAsTruthy action with
          | some name =>
            (setVar st2.vars name (getSavedValue resolved result), { result with savedAs := some name })
          | none => (st2.vars, result)
        .ok { st2 with
              vars := saved.1,
              results := st2.results ++
                [{ type := saved.2.type, ok := saved.2.ok, savedAs := saved.2.savedAs,
                   data := saved.2.data, index := index, timingMs := timing index }] }

/-- The loop of `runBrowser` over the remaining actions, starting at
`index` in state `st`. -/
def runLoop (exec : Nat → Action → ExecOutcome) (timing : Nat → Int) (intr : Nat → Bool) :
    List Action → Nat → RunState → RunOutcome
  | [], _, st => .success st.results st.vars
  | a :: rest, index, st =>
    match runStep exec timing intr a index st with
    | .error out => out
    | .ok st' => runLoop exec timing intr rest (index + 1) st'

/-- `runBrowser` of `cli.ts`, restricted to its pure orchestration core:
the browser capability is the `exec` oracle, per-action timings come from
`timing`, and `intr` reports whether the interrupt flag is set when the
loop top checks it at each index. -/
def runBrowser (exec : Nat → Action → ExecOutcome) (timing : Nat → Int) (intr : Nat → Bool)
    (actions : List Action) : RunOutcome :=
  runLoop exec timing intr actions 0 initState

/-- Successful execution of a list of consecutive actions starting at
`index`: the state after all of them completed without interrupt or
failure, or the failure report of the first failing one. -/
def runPrefix (exec : Nat → Action → ExecOutcome) (timing : Nat → Int) (intr : Nat → Bool) :
    List Action → Nat → RunState → Except RunOutcome RunState
  | [], _, st => .ok st
  | a :: rest, index, st =>
    match runStep exec timing intr a index st with
    | .error out => .error out
    | .ok st' => runPrefix exec timing intr rest (index + 1) st'

/-! ## Input validation (`parseInput` and helpers) -/

/-- A parsed JSON value, as produced by `JSON.parse` (numbers are modelled
as integers; JSON itself has no `NaN` or `undefined`). -/
inductive Json where
  | null : Json
  | bool : Bool → Json
  | num : Int → Json
  | str : String → Json
  | arr : List Json → Json
  | obj : List (String × Json) → Json

/-- JS property read `obj[name]` on a parsed-JSON object, `none` when the
field is absent (i.e. `undefined`). -/
def lookupField (fields : List (String × Json)) (name : String) : Option Json :=
  match fields with
  | [] => none
  | (m, w) :: rest => if m = name then some w else lookupField rest name

/-- `ensureObject` of `cli.ts`: the value must be a non-null, non-array
object. -/
def ensureObject (v : Json) (label : String) :
    Except CodexBrowserError (List (String × Json)) :=
  match v with
  | .obj fields => .ok fields
  | _ => .error ⟨.INVALID_INPUT, label ++ " must be an object"⟩

/-- `ensureString` of `cli.ts` applied to a possibly-absent field: the
value must be a non-empty string. -/
def ensureString (v : Option Json) (label : String) : Except CodexBrowserError String :=
  match v with
  | some (.str s) =>
    if s.isEmpty then .error ⟨.INVALID_INPUT, label ++ " must be a non-empty string"⟩
    else .ok s
  | _ => .error ⟨.INVALID_INPUT, label ++ " must be a non-empty string"⟩

/-- `ensureNumber` of `cli.ts` (parsed JSON never carries `NaN`). -/
def ensureNumber (v : Option Json) (label : String) : Except CodexBrowserError Int :=
  match v with
  | some (.num n) => .ok n
  | _ => .error ⟨.INVALID_INPUT, label ++ " must be a number"⟩

/-- `ensureOptionalNumber` of `cli.ts`. -/
def ensureOptionalNumber (v : Option Json) (label : String) :
    Except CodexBrowserError (Option Int) :=
  match v with
  | none => .ok none
  | some j =>
    match ensureNumber (some j) label with
    | .error e => .error e
    | .ok n => .ok (some n)

/-- `ensureOptionalBoolean` of `cli.ts`. -/
def ensureOptionalBoolean (v : Option Json) (label : String) :
    Except CodexBrowserError (Option Bool) :=
  match v with
  | none => .ok none
  | some (.bool b) => .ok (some b)
  | some _ => .error ⟨.INVALID_INPUT, label ++ " must be a boolean"⟩

/-- `ensureOptionalString` of `cli.ts`. -/
def ensureOptionalString (v : Option Json) (label : String) :
    Except CodexBrowserError (Option String) :=
  match v with
  | none => .ok none
  | some j =>
    match ensureString (some j) label with
    | .error e => .error e
    | .ok s => .ok (some s)

/-- The character class of the `saveAs` validation regex
`^[A-Za-z0-9_-]+$`. -/
def isSaveAsChar (c : Char) : Bool :=
  c.isAlpha || c.isDigit || c == '_' || c == '-'

/-- `ensureOptionalSaveAs` of `cli.ts`: a non-empty string over letters,
digits, underscores and dashes. -/
def ensureOptionalSaveAs (v : Option Json) (label : String) :
    Except CodexBrowserError (Option String) :=
  match v with
  | none => .ok none
  | some j =>
    match ensureString (some j) label with
    | .error e => .error e
    | .ok name =>
      if name.data.all isSaveAsChar then .ok (some name)
      else .error ⟨.INVALID_INPUT,
        label ++ " must use only letters, numbers, underscores, or dashes"⟩

/-- `ensureOptionalOneOf` of `cli.ts`: the value, when present, must be one
of the allowed strings. -/
def ensureOptionalOneOf (v : Option Json) (allowed : List String) (label : String) :
    Except CodexBrowserError (Option String) :=
  match v with
  | none => .ok none
  | some (.str s) =>
    if allowed.contains s then .ok (some s)
    else .error ⟨.INVALID_INPUT, label ++ " must be one of: " ++ ", ".intercalate allowed⟩
  | some _ => .error ⟨.INVALID_INPUT, label ++ " must be one of: " ++ ", ".intercalate allowed⟩

/-- Explicit error-propagating bind on `Except CodexBrowserError`
(the try/throw control flow of the validation helpers). -/
def chk {α β : Type} (x : Except CodexBrowserError α)
    (f : α → Except CodexBrowserError β) : Except CodexBrowserError β :=
  match x with
  | .error e => .error e
  | .ok a => f a

/-- `validateViewport` of `cli.ts`. -/
def validateViewport (v : Json) (label : String) : Except CodexBrowserError (Int × Int) :=
  chk (ensureObject v label) fun obj =>
  chk (ensureNumber (lookupField obj "width") (label ++ ".width")) fun w =>
  chk (ensureNumber (lookupField obj "height") (label ++ ".height")) fun h =>
  .ok (w, h)

/-- The recognized `Options` of `cli.ts` (process-level options; viewport
as a width/height pair). -/
structure Options where
  headless : Option Bool
  slowMoMs : Option Int
  defaultTimeoutMs : Option Int
  defaultNavigationTimeoutMs : Option Int
  viewport : Option (Int × Int)
  userAgent : Option String
  locale : Option String
  timezoneId : Option String
  ignoreHTTPSErrors : Option Bool
  traceOnFailureDir : Option String
  captureConsole : Option Bool

/-- `validateOptions` of `cli.ts`, field by field in source order. -/
def validateOptions (v : Option Json) : Except CodexBrowserError (Option Options) :=
  match v with
  | none => .ok none
  | some jv =>
    chk (ensureObject jv "options") fun obj =>
    chk (match lookupField obj "headless" with
         | none => .ok none
         | some _ => ensureOptionalBoolean (lookupField obj "headless") "options.headless")
      fun headless =>
    chk (ensureOptionalNumber (lookupField obj "slowMoMs") "options.slowMoMs") fun slowMoMs =>
    chk (ensureOptionalNumber (lookupField obj "defaultTimeoutMs") "options.defaultTimeoutMs")
      fun defaultTimeoutMs =>
    chk (ensureOptionalNumber (lookupField obj "defaultNavigationTimeoutMs")
          "options.defaultNavigationTimeoutMs") fun defaultNavigationTimeoutMs =>
    chk (match lookupField obj "viewport" with
         | none => .ok none
         | some vp =>
           match validateViewport vp "options.viewport" with
           | .error e => .error e
           | .ok wh => .ok (some wh)) fun viewport =>
    chk (ensureOptionalString (lookupField obj "userAgent") "options.userAgent") fun userAgent =>
    chk (ensureOptionalString (lookupField obj "locale") "options.locale") fun locale =>
    chk (ensureOptionalString (lookupField obj "timezoneId") "options.timezoneId")
      fun timezoneId =>
    chk (ensureOptionalBoolean (lookupField obj "ignoreHTTPSErrors") "options.ignoreHTTPSErrors")
      fun ignoreHTTPSErrors =>
    chk (ensureOptionalString (lookupField obj "traceOnFailureDir") "options.traceOnFailureDir")
      fun traceOnFailureDir =>
    chk (ensureOptionalBoolean (lookupField obj "captureConsole") "options.captureConsole")
      fun captureConsole =>
    .ok (some { headless := headless, slowMoMs := slowMoMs,
                defaultTimeoutMs := defaultTimeoutMs,
                defaultNavigationTimeoutMs := defaultNavigationTimeoutMs,
                viewport := viewport, userAgent := userAgent, locale := locale,
                timezoneId := timezoneId, ignoreHTTPSErrors := ignoreHTTPSErrors,
                traceOnFailureDir := traceOnFailureDir, captureConsole := captureConsole })

/-- `validateAction` of `cli.ts`: common `type` and `saveAs` checks, then
the kind-specific field checks, in source order; an unsupported kind is an
`INVALID_INPUT` failure. -/
def validateAction (v : Json) (index : Nat) : Except CodexBrowserError Action :=
  chk (ensureObject v ("actions[" ++ toString index ++ "]")) fun obj =>
  chk (ensureString (lookupField obj "type") ("actions[" ++ toString index ++ "].type"))
    fun type =>
  chk (ensureOptionalSaveAs (lookupField obj "saveAs")
        ("actions[" ++ toString index ++ "].saveAs")) fun saveAs =>
  if type = "goto" then
    chk (ensureString (lookupField obj "url") ("actions[" ++ toString index ++ "].url"))
      fun url =>
    chk (ensureOptionalOneOf (lookupField obj "waitUntil")
          ["load", "domcontentloaded", "networkidle"]
          ("actions[" ++ toString index ++ "].waitUntil")) fun waitUntil =>
    chk (ensureOptionalNumber (lookupField obj "timeoutMs")
          ("actions[" ++ toString index ++ "].timeoutMs")) fun timeoutMs =>
    .ok (.goto url waitUntil timeoutMs saveAs)
  else if type = "waitFor" then
    chk (ensureString (lookupField obj "selector")
          ("actions[" ++ toString index ++ "].selector")) fun selector =>
    chk (ensureOptionalOneOf (lookupField obj "state")
          ["attached", "detached", "visible", "hidden"]
          ("actions[" ++ toString index ++ "].state")) fun state =>
    chk (ensureOptionalNumber (lookupField obj "timeoutMs")
          ("actions[" ++ toString index ++ "].timeoutMs")) fun timeoutMs =>
    .ok (.waitFor selector state timeoutMs saveAs)
  else if type = "waitForLoadState" then
    chk (ensureOptionalOneOf (lookupField obj "state")
          ["load", "domcontentloaded", "networkidle"]
          ("actions[" ++ toString index ++ "].state")) fun state =>
    chk (ensureOptionalNumber (lookupField obj "timeoutMs")
          ("actions[" ++ toString index ++ "].timeoutMs")) fun timeoutMs =>
    .ok (.waitForLoadState state timeoutMs saveAs)
  else if type = "click" then
    chk (ensureString (lookupField obj "selector")
          ("actions[" ++ toString index ++ "].selector")) fun selector =>
    chk (ensureOptionalOneOf (lookupField obj "button") ["left", "right", "middle"]
          ("actions[" ++ toString index ++ "].button")) fun button =>
    chk (ensureOptionalNumber (lookupField obj "clickCount")
          ("actions[" ++ toString index ++ "].clickCount")) fun clickCount =>
    chk (ensureOptionalNumber (lookupField obj "delayMs")
          ("actions[" ++ toString index ++ "].delayMs")) fun delayMs =>
    chk (ensureOptionalNumber (lookupField obj "timeoutMs")
          ("actions[" ++ toString index ++ "].timeoutMs")) fun timeoutMs =>
    .ok (.click selector button clickCount delayMs timeoutMs saveAs)
  else if type = "fill" then
    chk (ensureString (lookupField obj "selector")
          ("actions[" ++ toString index ++ "].selector")) fun selector =>
    chk (ensureString (lookupField obj "text")
          ("actions[" ++ toString index ++ "].text")) fun text =>
    chk (ensureOptionalNumber (lookupField obj "timeoutMs")
          ("actions[" ++ toString index ++ "].timeoutMs")) fun timeoutMs =>
    .ok (.fill selector text timeoutMs saveAs)
  else if type = "press" then
    chk (ensureString (lookupField obj "key") ("actions[" ++ toString index ++ "].key"))
      fun key =>
    chk (ensureOptionalString (lookupField obj "selector")
          ("actions[" ++ toString index ++ "].selector")) fun selector =>
    chk (ensureOptionalNumber (lookupField obj "timeoutMs")
          ("actions[" ++ toString index ++ "].timeoutMs")) fun timeoutMs =>
    .ok (.press key selector timeoutMs saveAs)
  else if type = "screenshot" then
    chk (ensureString (lookupField obj "path") ("actions[" ++ toString index ++ "].path"))
      fun path =>
    chk (ensureOptionalBoolean (lookupField obj "fullPage")
          ("actions[" ++ toString index ++ "].fullPage")) fun fullPage =>
    .ok (.screenshot path fullPage saveAs)
  else if type = "evaluate" then
    chk (ensureString (lookupField obj "expression")
          ("actions[" ++ toString index ++ "].expression")) fun expression =>
    .ok (.evaluate expression saveAs)
  else if type = "setViewport" then
    chk (ensureNumber (lookupField obj "width") ("actions[" ++ toString index ++ "].width"))
      fun width =>
    chk (ensureNumber (lookupField obj "height") ("actions[" ++ toString index ++ "].height"))
      fun height =>
    .ok (.setViewport width height saveAs)
  else if type = "wait" then
    chk (ensureNumber (lookupField obj "ms") ("actions[" ++ toString index ++ "].ms"))
      fun ms =>
    .ok (.wait ms saveAs)
  else
    .error ⟨.INVALID_INPUT,
      "actions[" ++ toString index ++ "].type is unsupported: " ++ type⟩

/-- `obj.actions.map(validateAction)`: JS `map` calls the callback in
order and the first thrown error aborts the whole map. -/
def validateActions : List Json → Nat → Except CodexBrowserError (List Action)
  | [], _ => .ok []
  | v :: rest, index =>
    chk (validateAction v index) fun a =>
    chk (validateActions rest (index + 1)) fun as =>
    .ok (a :: as)

/-- The validated input payload. -/
structure InputPayload where
  actions : List Action
  options : Option Options

/-- `parseInput` of `cli.ts` on an already-parsed JSON value: the payload
must be an object, `actions` must be an array, every element is validated
(before the emptiness check, which follows the `map` in the source), the
list must be non-empty, and `options` is validated last. -/
def parseInput (parsed : Json) : Except CodexBrowserError InputPayload :=
  chk (ensureObject parsed "input") fun obj =>
  chk (match lookupField obj "actions" with
       | some (.arr items) => .ok items
       | _ => .error ⟨.INVALID_INPUT, "actions must be an array"⟩) fun items =>
  chk (validateActions items 0) fun actions =>
  if actions.length = 0 then
    .error ⟨.INVALID_INPUT, "actions must contain at least one entry"⟩
  else
    chk (validateOptions (lookupField obj "options")) fun options =>
    .ok { actions := actions, options := options }

/-- A serialized failure report (the `error` object of the failure
payload). -/
structure ErrorReport where
  code : ErrorCode
  message : String
  stepIndex : Option Nat
  action : Option Action
  resultsSoFar : Option (List ActionMetaResult)

/-- `serializeError` as called from `main`'s catch block with no extras:
the code comes from `inferErrorCode`, and no step index, no action and no
partial results are attached. -/
def serializeErrorBare (err : JsError) : ErrorReport :=
  { code := inferErrorCode err,
    message := (match err with
      | .codex e => e.message
      | .generic _ m => m
      | .nonError s => s),
    stepIndex := none, action := none, resultsSoFar := none }

/-- The observable outcome of `main` on a parsed payload: either the
browser run was started (`ran`, wrapping `runBrowser`'s outcome), or the
run was rejected during validation (`early`) and no session was ever
launched — the early report does not depend on the browser capability. -/
inductive MainOutcome where
  | ran : RunOutcome → MainOutcome
  | early : ErrorReport → MainOutcome

/-- `main` of `cli.ts`, restricted to the validate-then-run pipeline:
`parseInput` runs before `runBrowser`, and a validation failure is
serialized with no extras. -/
def mainModel (parsed : Json) (exec : Nat → Action → ExecOutcome) (timing : Nat → Int)
    (intr : Nat → Bool) : MainOutcome :=
  match parseInput parsed with
  | .error e => .early (serializeErrorBare (.codex e))
  | .ok payload => .ran (runBrowser exec timing intr payload.actions)

/-! ## Validation errors carry the INVALID_INPUT code -/

/-- Error propagation through `chk` preserves the error-code invariant. -/
theorem chk_error_code {α β : Type} (x : Except CodexBrowserError α)
    (f : α → Except CodexBrowserError β) (e : CodexBrowserError)
    (hx : ∀ e', x = .error e' → e'.code = .INVALID_INPUT)
    (hf : ∀ a e', f a = .error e' → e'.code = .INVALID_INPUT)
    (h : chk x f = .error e) : e.code = .INVALID_INPUT := by
  unfold chk at h
  cases hx' : x with
  | error e1 => rw [hx'] at h; cases h; exact hx _ hx'
  | ok a => rw [hx'] at h; exact hf a e h

/-- Extracting the code from an equality with a literal error. -/
theorem err_inj {α : Type} {msg : String} {e : CodexBrowserError} {c : ErrorCode}
    (h : (Except.error ⟨c, msg⟩ : Except CodexBrowserError α) = .error e) : e.code = c := by
  cases h; rfl

theorem ensureObject_error_code (v : Json) (l : String) (e : CodexBrowserError)
    (h : ensureObject v l = .error e) : e.code = .INVALID_INPUT := by
  cases v with
  | null => exact err_inj h
  | bool b => exact err_inj h
  | num n => exact err_inj h
  | str s => exact err_inj h
  | arr xs => exact err_inj h
  | obj fs => rw [show ensureObject (.obj fs) l = .ok fs from rfl] at h; cases h

theorem ensureString_error_code (v : Option Json) (l : String) (e : CodexBrowserError)
    (h : ensureString v l = .error e) : e.code = .INVALID_INPUT := by
  cases v with
  | none => exact err_inj h
  | some j =>
    cases j with
    | str s =>
      by_cases hs : s.isEmpty = true
      · have hred : ensureString (some (.str s)) l =
            .error ⟨.INVALID_INPUT, l ++ " must be a non-empty string"⟩ := by
          simp [ensureString, hs]
        rw [hred] at h
        exact err_inj h
      · have hred : ensureString (some (.str s)) l = .ok s := by
          simp [ensureString, hs]
        rw [hred] at h
        cases h
    | null => exact err_inj h
    | bool b => exact err_inj h
    | num n => exact err_inj h
    | arr xs => exact err_inj h
    | obj fs => exact err_inj h

theorem ensureNumber_error_code (v : Option Json) (l : String) (e : CodexBrowserError)
    (h : ensureNumber v l = .error e) : e.code = .INVALID_INPUT := by
  cases v with
  | none => exact err_inj h
  | some j =>
    cases j with
    | num n => rw [show ensureNumber (some (.num n)) l = .ok n from rfl] at h; cases h
    | null => exact err_inj h
    | bool b => exact err_inj h
    | str s => exact err_inj h
    | arr xs => exact err_inj h
    | obj fs => exact err_inj h

theorem ensureOptionalNumber_error_code (v : Option Json) (l : String) (e : CodexBrowserError)
    (h : ensureOptionalNumber v l = .error e) : e.code = .INVALID_INPUT := by
  cases v with
  | none => cases h
  | some j =>
    have hred : ensureOptionalNumber (some j) l =
        (match ensureNumber (some j) l with
          | .error e => .error e
          | .ok n => .ok (some n)) := rfl
    rw [hred] at h
    cases hn : ensureNumber (some j) l with
    | error e1 =>
      rw [hn] at h
      cases h
      exact ensureNumber_error_code _ _ _ hn
    | ok n => rw [hn] at h; cases h

theorem ensureOptionalBoolean_error_code (v : Option Json) (l : String) (e : CodexBrowserError)
    (h : ensureOptionalBoolean v l = .error e) : e.code = .INVALID_INPUT := by
  cases v with
  | none => cases h
  | some j =>
    cases j with
    | bool b => rw [show ensureOptionalBoolean (some (.bool b)) l = .ok (some b) from rfl] at h; cases h
    | null => exact err_inj h
    | num n => exact err_inj h
    | str s => exact err_inj h
    | arr xs => exact err_inj h
    | obj fs => exact err_inj h

theorem ensureOptionalString_error_code (v : Option Json) (l : String) (e : CodexBrowserError)
    (h : ensureOptionalString v l = .error e) : e.code = .INVALID_INPUT := by
  cases v with
  | none => cases h
  | some j =>
    have hred : ensureOptionalString (some j) l =
        (match ensureString (some j) l with
          | .error e => .error e
          | .ok s => .ok (some s)) := rfl
    rw [hred] at h
    cases hn : ensureString (some j) l with
    | error e1 =>
      rw [hn] at h
      cases h
      exact ensureString_error_code _ _ _ hn
    | ok s => rw [hn] at h; cases h

theorem ensureOptionalSaveAs_error_code (v : Option Json) (l : String) (e : CodexBrowserError)
    (h : ensureOptionalSaveAs v l = .error e) : e.code = .INVALID_INPUT := by
  cases v with
  | none => cases h
  | some j =>
    have hred : ensureOptionalSaveAs (some j) l =
        (match ensureString (some j) l with
          | .error e => .error e
          | .ok name =>
            if name.data.all isSaveAsChar then .ok (some name)
            else .error ⟨.INVALID_INPUT,
              l ++ " must use only letters, numbers, underscores, or dashes"⟩) := rfl
    rw [hred] at h
    cases hn : ensureString (some j) l with
    | error e1 =>
      rw [hn] at h
      cases h
      exact ensureString_error_code _ _ _ hn
    | ok name =>
      rw [hn] at h
      have h' : (if name.data.all isSaveAsChar = true then
            (Except.ok (some name) : Except CodexBrowserError (Option String))
          else .error ⟨.INVALID_INPUT,
            l ++ " must use only letters, numbers, underscores, or dashes"⟩) = .error e := h
      by_cases hall : name.data.all isSaveAsChar = true
      · rw [if_pos hall] at h'; cases h'
      · rw [if_neg hall] at h'; exact err_inj h'

theorem ensureOptionalOneOf_error_code (v : Option Json) (allowed : List String) (l : String)
    (e : CodexBrowserError) (h : ensureOptionalOneOf v allowed l = .error e) :
    e.code = .INVALID_INPUT := by
  cases v with
  | none => cases h
  | some j =>
    cases j with
    | str s =>
      have hred : ensureOptionalOneOf (some (.str s)) allowed l =
          (if allowed.contains s then .ok (some s)
           else .error ⟨.INVALID_INPUT,
             l ++ " must be one of: " ++ ", ".intercalate allowed⟩) := rfl
      rw [hred] at h
      by_cases hc : allowed.contains s = true
      · rw [if_pos hc] at h; cases h
      · rw [if_neg hc] at h; exact err_inj h
    | null => exact err_inj h
    | bool b => exact err_inj h
    | num n => exact err_inj h
    | arr xs => exact err_inj h
    | obj fs => exact err_inj h

theorem validateAction_error_code (v : Json) (i : Nat) (e : CodexBrowserError)
    (h : validateAction v i = .error e) : e.code = .INVALID_INPUT := by
  unfold validateAction at h
  refine chk_error_code _ _ e (fun e' h' => ensureObject_error_code _ _ e' h')
    (fun obj e' h' => ?_) h
  refine chk_error_code _ _ e' (fun e2 h2 => ensureString_error_code _ _ e2 h2)
    (fun ty e2 h2 => ?_) h'
  refine chk_error_code _ _ e2 (fun e3 h3 => ensureOptionalSaveAs_error_code _ _ e3 h3)
    (fun sv e3 h3 => ?_) h2
  by_cases hk0 : ty = "goto"
  · rw [if_pos hk0] at h3
    refine chk_error_code _ _ _ (fun e10 h10 => ensureString_error_code _ _ e10 h10)
      (fun x10 e10 h10 => ?_) h3
    refine chk_error_code _ _ _ (fun e11 h11 => ensureOptionalOneOf_error_code _ _ _ e11 h11)
      (fun x11 e11 h11 => ?_) h10
    refine chk_error_code _ _ _ (fun e12 h12 => ensureOptionalNumber_error_code _ _ e12 h12)
      (fun x12 e12 h12 => ?_) h11
    cases h12
  · rw [if_neg hk0] at h3
    by_cases hk1 : ty = "waitFor"
    · rw [if_pos hk1] at h3
      refine chk_error_code _ _ _ (fun e20 h20 => ensureString_error_code _ _ e20 h20)
        (fun x20 e20 h20 => ?_) h3
      refine chk_error_code _ _ _ (fun e21 h21 => ensureOptionalOneOf_error_code _ _ _ e21 h21)
        (fun x21 e21 h21 => ?_) h20
      refine chk_error_code _ _ _ (fun e22 h22 => ensureOptionalNumber_error_code _ _ e22 h22)
        (fun x22 e22 h22 => ?_) h21
      cases h22
    · rw [if_neg hk1] at h3
      by_cases hk2 : ty = "waitForLoadState"
      · rw [if_pos hk2] at h3
        refine chk_error_code _ _ _ (fun e30 h30 => ensureOptionalOneOf_error_code _ _ _ e30 h30)
          (fun x30 e30 h30 => ?_) h3
        refine chk_error_code _ _ _ (fun e31 h31 => ensureOptionalNumber_error_code _ _ e31 h31)
          (fun x31 e31 h31 => ?_) h30
        cases h31
      · rw [if_neg hk2] at h3
        by_cases hk3 : ty = "click"
        · rw [if_pos hk3] at h3
          refine chk_error_code _ _ _ (fun e40 h40 => ensureString_error_code _ _ e40 h40)
            (fun x40 e40 h40 => ?_) h3
          refine chk_error_code _ _ _ (fun e41 h41 => ensureOptionalOneOf_error_code _ _ _ e41 h41)
            (fun x41 e41 h41 => ?_) h40
          refine chk_error_code _ _ _ (fun e42 h42 => ensureOptionalNumber_error_code _ _ e42 h42)
            (fun x42 e42 h42 => ?_) h41
          refine chk_error_code _ _ _ (fun e43 h43 => ensureOptionalNumber_error_code _ _ e43 h43)
            (fun x43 e43 h43 => ?_) h42
          refine chk_error_code _ _ _ (fun e44 h44 => ensureOptionalNumber_error_code _ _ e44 h44)
            (fun x44 e44 h44 => ?_) h43
          cases h44
        · rw [if_neg hk3] at h3
          by_cases hk4 : ty = "fill"
          · rw [if_pos hk4] at h3
            refine chk_error_code _ _ _ (fun e50 h50 => ensureString_error_code _ _ e50 h50)
              (fun x50 e50 h50 => ?_) h3
            refine chk_error_code _ _ _ (fun e51 h51 => ensureString_error_code _ _ e51 h51)
              (fun x51 e51 h51 => ?_) h50
            refine chk_error_code _ _ _ (fun e52 h52 => ensureOptionalNumber_error_code _ _ e52 h52)
              (fun x52 e52 h52 => ?_) h51
            cases h52
          · rw [if_neg hk4] at h3
            by_cases hk5 : ty = "press"
            · rw [if_pos hk5] at h3
              refine chk_error_code _ _ _ (fun e60 h60 => ensureString_error_code _ _ e60 h60)
                (fun x60 e60 h60 => ?_) h3
              refine chk_error_code _ _ _ (fun e61 h61 => ensureOptionalString_error_code _ _ e61 h61)
                (fun x61 e61 h61 => ?_) h60
              refine chk_error_code _ _ _ (fun e62 h62 => ensureOptionalNumber_error_code _ _ e62 h62)
                (fun x62 e62 h62 => ?_) h61
              cases h62
            · rw [if_neg hk5] at h3
              by_cases hk6 : ty = "screenshot"
              · rw [if_pos hk6] at h3
                refine chk_error_code _ _ _ (fun e70 h70 => ensureString_error_code _ _ e70 h70)
                  (fun x70 e70 h70 => ?_) h3
                refine chk_error_code _ _ _ (fun e71 h71 => ensureOptionalBoolean_error_code _ _ e71 h71)
                  (fun x71 e71 h71 => ?_) h70
                cases h71
              · rw [if_neg hk6] at h3
                by_cases hk7 : ty = "evaluate"
                · rw [if_pos hk7] at h3
                  refine chk_error_code _ _ _ (fun e80 h80 => ensureString_error_code _ _ e80 h80)
                    (fun x80 e80 h80 => ?_) h3
                  cases h80
                · rw [if_neg hk7] at h3
                  by_cases hk8 : ty = "setViewport"
                  · rw [if_pos hk8] at h3
                    refine chk_error_code _ _ _ (fun e90 h90 => ensureNumber_error_code _ _ e90 h90)
                      (fun x90 e90 h90 => ?_) h3
                    refine chk_error_code _ _ _ (fun e91 h91 => ensureNumber_error_code _ _ e91 h91)
                      (fun x91 e91 h91 => ?_) h90
                    cases h91
                  · rw [if_neg hk8] at h3
                    by_cases hk9 : ty = "wait"
                    · rw [if_pos hk9] at h3
                      refine chk_error_code _ _ _ (fun e100 h100 => ensureNumber_error_code _ _ e100 h100)
                        (fun x100 e100 h100 => ?_) h3
                      cases h100
                    · rw [if_neg hk9] at h3
                      exact err_inj h3

/-- If some element of the actions array fails validation at its index,
the whole array validation fails with an `INVALID_INPUT` error. -/
theorem validateActions_error_of_mem :
    ∀ (items : List Json) (start : Nat),
      (∃ j e', (items.get? j).isSome ∧
        validateAction ((items.get? j).getD .null) (start + j) = .error e') →
      ∃ e, validateActions items start = .error e ∧ e.code = .INVALID_INPUT := by
  intro items
  induction items with
  | nil =>
    intro start h
    obtain ⟨j, e', hj, -⟩ := h
    simp [List.get?] at hj
  | cons v rest ih =>
    intro start h
    obtain ⟨j, e', hj, hv⟩ := h
    cases j with
    | zero =>
      simp only [List.get?, Option.getD_some, Nat.add_zero] at hv
      refine ⟨e', ?_, validateAction_error_code _ _ _ hv⟩
      simp only [validateActions]
      rw [hv]
      rfl
    | succ j' =>
      simp only [List.get?] at hj hv
      cases hva : validateAction v start with
      | error e1 =>
        refine ⟨e1, ?_, validateAction_error_code _ _ _ hva⟩
        simp only [validateActions]
        rw [hva]
        rfl
      | ok a =>
        have hrest := ih (start + 1)
          ⟨j', e', hj, by rw [show start + 1 + j' = start + (j' + 1) from by omega]; exact hv⟩
        obtain ⟨e1, hve, hcode⟩ := hrest
        refine ⟨e1, ?_, hcode⟩
        simp only [validateActions]
        rw [hva]
        simp only [chk]
        rw [hve]

/-! ## Lemmas about the template resolver -/

/-- `readVarPath` is the own-property walk of the spec, with the
"path not found" error on a missing segment. -/
theorem readVarPath_eq (lbl : String) :
    ∀ (parts : List String) (value : JsValue),
      readVarPath value parts lbl =
        match specWalk value parts with
        | some v => .ok v
        | none => .error ⟨.TEMPLATE_ERROR, "Template path not found: " ++ lbl⟩ := by
  intro parts
  induction parts with
  | nil => intro value; rfl
  | cons part rest ih =>
    intro value
    cases value with
    | vObj fields =>
      simp only [readVarPath, specWalk, getOwnProp]
      cases hf : lookupVar fields part with
      | none => simp
      | some next => simpa using ih next
    | vArr elems =>
      simp only [readVarPath, specWalk, getOwnProp]
      by_cases hl : (part == "length") = true
      · simpa [hl] using ih (.vNum elems.length)
      · simp only [hl]
        by_cases hi : (isCanonicalIndex part.data && decide (digitsToNat part.data 0 < elems.length)) = true
        · simpa [hi] using ih (elems.getD (digitsToNat part.data 0) .vUndef)
        · simp [hi]
    | vUndef => rfl
    | vNull => rfl
    | vBool b => rfl
    | vNum n => rfl
    | vStr s => rfl

/-- Every error raised inside `substPath` carries the `TEMPLATE_ERROR`
code. -/
theorem substPath_error_code (vars : VarStore) (p : String) (e : CodexBrowserError)
    (h : substPath vars p = .error e) : e.code = .TEMPLATE_ERROR := by
  simp only [substPath] at h
  rw [readVarPath_eq] at h
  split at h
  · cases h; rfl
  · cases hw : specWalk (.vObj vars) (pathParts p) with
    | none => rw [hw] at h; cases h; rfl
    | some v =>
      rw [hw] at h
      simp only at h
      split at h
      · cases h; rfl
      · split at h
        · cases h; rfl
        · cases h

/-- `substPath` succeeds with exactly the spec-side substitution text. -/
theorem substPath_ok_iff (vars : VarStore) (p : String) (out : String) :
    substPath vars p = .ok out ↔ specSubst vars p = some out := by
  simp only [substPath, specSubst]
  rw [readVarPath_eq]
  by_cases hemp : (pathParts p).isEmpty = true
  · have hnil : pathParts p = [] := by simpa using hemp
    simp [hemp, hnil, specWalk, isNonPrimitive]
  · cases hw : specWalk (.vObj vars) (pathParts p) with
    | none => simp [hemp, hw]
    | some v =>
      simp only [hemp, hw, if_false, Bool.false_eq_true]
      by_cases he : isEmptyValue v = true
      · simp [he]
      · by_cases hn : isNonPrimitive v = true
        · simp [he, hn]
        · simp [he, hn]

/-- `substPath` fails exactly when the spec says the placeholder fails. -/
theorem substPath_fails_iff (vars : VarStore) (p : String) :
    (∃ e, substPath vars p = .error e ∧ e.code = .TEMPLATE_ERROR) ↔
      specPlaceholderFails vars p = true := by
  constructor
  · rintro ⟨e, he, -⟩
    by_contra hfail
    have hsome : ∃ out, specSubst vars p = some out := by
      unfold specSubst
      unfold specPlaceholderFails at hfail
      cases hw : specWalk (.vObj vars) (pathParts p) with
      | none => rw [hw] at hfail; simp at hfail
      | some v =>
        rw [hw] at hfail
        simp only [Bool.not_eq_true] at hfail
        simp [hfail]
    obtain ⟨out, hout⟩ := hsome
    rw [← substPath_ok_iff] at hout
    rw [he] at hout
    cases hout
  · intro hfail
    cases hs : substPath vars p with
    | ok out =>
      rw [substPath_ok_iff] at hs
      unfold specSubst at hs
      unfold specPlaceholderFails at hfail
      cases hw : specWalk (.vObj vars) (pathParts p) with
      | none => rw [hw] at hs; cases hs
      | some v =>
        rw [hw] at hs
        rw [hw] at hfail
        simp only at hs hfail
        rw [hfail] at hs
        cases hs
    | error e => exact ⟨e, rfl, substPath_error_code vars p e hs⟩

/-- A successful match of the template regex starts with two opening
braces. -/
theorem tryMatch_shape (l : List Char) (x : String × List Char)
    (h : tryMatch l = some x) : ∃ rest, l = '{' :: '{' :: rest := by
  rw [tryMatch.eq_def] at h
  split at h
  · next rest => exact ⟨rest, rfl⟩
  · cases h

/-- If the scan finds any placeholder, the string contains `{{`. -/
theorem pathsFuel_ne_nil_containsBraces :
    ∀ (fuel : Nat) (l : List Char), pathsFuel fuel l ≠ [] → containsBraces l = true := by
  intro fuel
  induction fuel with
  | zero => intro l h; cases l <;> simp [pathsFuel] at h
  | succ fuel ih =>
    intro l h
    match l with
    | [] => simp [pathsFuel] at h
    | c :: rest =>
      cases htm : tryMatch (c :: rest) with
      | some pr =>
        obtain ⟨tl, heq⟩ := tryMatch_shape _ _ htm
        cases heq
        simp [containsBraces]
      | none =>
        simp only [pathsFuel, htm] at h
        have := ih rest h
        simp [containsBraces, this]

/-- The scan and the spec-side rendering agree: either both succeed with
the same output, or the scan raises a `TEMPLATE_ERROR` and the rendering
fails. -/
theorem scanFuel_cases (vars : VarStore) :
    ∀ (fuel : Nat) (l : List Char),
      (∃ out, scanFuel vars fuel l = .ok out ∧ specRenderFuel vars fuel l = some out) ∨
      (∃ e, scanFuel vars fuel l = .error e ∧ e.code = .TEMPLATE_ERROR ∧
        specRenderFuel vars fuel l = none) := by
  intro fuel
  induction fuel with
  | zero =>
    intro l
    cases l with
    | nil => exact .inl ⟨[], rfl, rfl⟩
    | cons c rest => exact .inl ⟨[], rfl, rfl⟩
  | succ fuel ih =>
    intro l
    match l with
    | [] => exact .inl ⟨[], rfl, rfl⟩
    | c :: rest =>
      cases htm : tryMatch (c :: rest) with
      | some pr =>
        obtain ⟨p, tail⟩ := pr
        cases hsub : substPath vars p with
        | error e =>
          refine .inr ⟨e, ?_, substPath_error_code vars p e hsub, ?_⟩
          · simp [scanFuel, htm, hsub]
          · have hnone : specSubst vars p = none := by
              cases hss : specSubst vars p with
              | none => rfl
              | some out =>
                rw [← substPath_ok_iff] at hss
                rw [hsub] at hss
                cases hss
            simp [specRenderFuel, htm, hnone]
        | ok repl =>
          have hspec : specSubst vars p = some repl := (substPath_ok_iff vars p repl).1 hsub
          rcases ih tail with ⟨out, ho, hr⟩ | ⟨e, he, hc, hr⟩
          · exact .inl ⟨repl.data ++ out, by simp [scanFuel, htm, hsub, ho],
              by simp [specRenderFuel, htm, hspec, hr]⟩
          · exact .inr ⟨e, by simp [scanFuel, htm, hsub, he], hc,
              by simp [specRenderFuel, htm, hspec, hr]⟩
      | none =>
        rcases ih rest with ⟨out, ho, hr⟩ | ⟨e, he, hc, hr⟩
        · exact .inl ⟨c :: out, by simp [scanFuel, htm, ho], by simp [specRenderFuel, htm, hr]⟩
        · exact .inr ⟨e, by simp [scanFuel, htm, he], hc, by simp [specRenderFuel, htm, hr]⟩

/-- The spec-side rendering fails exactly when some matched placeholder
fails. -/
theorem specRenderFuel_none_iff (vars : VarStore) :
    ∀ (fuel : Nat) (l : List Char),
      specRenderFuel vars fuel l = none ↔
        ∃ p ∈ pathsFuel fuel l, specPlaceholderFails vars p = true := by
  intro fuel
  induction fuel with
  | zero => intro l; cases l <;> simp [specRenderFuel, pathsFuel]
  | succ fuel ih =>
    intro l
    match l with
    | [] => simp [specRenderFuel, pathsFuel]
    | c :: rest =>
      cases htm : tryMatch (c :: rest) with
      | some pr =>
        obtain ⟨p, tail⟩ := pr
        cases hss : specSubst vars p with
        | none =>
          have hfail : specPlaceholderFails vars p = true := by
            have : ¬∃ out, specSubst vars p = some out := by simp [hss]
            by_contra hnf
            simp only [Bool.not_eq_true] at hnf
            apply this
            unfold specSubst
            unfold specPlaceholderFails at hnf
            cases hw : specWalk (.vObj vars) (pathParts p) with
            | none => rw [hw] at hnf; simp at hnf
            | some v =>
              rw [hw] at hnf
              simp only [Bool.not_eq_true] at hnf  -- may be redundant
              simp [hnf]
          simp only [specRenderFuel, htm, pathsFuel, hss]
          constructor
          · intro _; exact ⟨p, by simp, hfail⟩
          · intro _; trivial
        | some repl =>
          have hnofail : specPlaceholderFails vars p = false := by
            by_contra hnf
            simp only [Bool.not_eq_false] at hnf
            have := (substPath_fails_iff vars p).2 hnf
            obtain ⟨e, he, -⟩ := this
            rw [show substPath vars p = .ok repl from (substPath_ok_iff vars p repl).2 hss] at he
            cases he
          simp only [specRenderFuel, htm, pathsFuel, hss, Option.map_eq_none']
          rw [ih tail]
          constructor
          · rintro ⟨q, hq, hfq⟩; exact ⟨q, by simp [hq], hfq⟩
          · rintro ⟨q, hq, hfq⟩
            simp only [List.mem_cons] at hq
            rcases hq with rfl | hq
            · rw [hnofail] at hfq; cases hfq
            · exact ⟨q, hq, hfq⟩
      | none =>
        simp only [specRenderFuel, htm, pathsFuel, Option.map_eq_none']
        exact ih rest

/-- Dropping a prefix never lengthens a list. -/
theorem dropWhile_length_le (p : Char → Bool) :
    ∀ l : List Char, (l.dropWhile p).length ≤ l.length := by
  intro l
  induction l with
  | nil => simp
  | cons c rest ih =>
    by_cases hc : p c = true
    · simp only [List.dropWhile_cons, hc, if_true]
      exact Nat.le_succ_of_le ih
    · simp [List.dropWhile_cons, hc]

/-- A regex match consumes at least the two braces: the remainder is
strictly shorter than the input, so fuel equal to the input length never
runs out in `scanFuel`/`pathsFuel`. -/
theorem tryMatch_tail_lt (l : List Char) (x : String × List Char)
    (h : tryMatch l = some x) : x.2.length < l.length := by
  rw [tryMatch.eq_def] at h
  split at h
  · next rest =>
    simp only at h
    split at h
    · cases h
    · split at h
      · next tail heq =>
        cases h
        have h1 : (((rest.dropWhile isJsSpace).dropWhile isPathChar).dropWhile isJsSpace).length
            ≤ rest.length := by
          calc (((rest.dropWhile isJsSpace).dropWhile isPathChar).dropWhile isJsSpace).length
              ≤ ((rest.dropWhile isJsSpace).dropWhile isPathChar).length :=
                dropWhile_length_le _ _
            _ ≤ (rest.dropWhile isJsSpace).length := dropWhile_length_le _ _
            _ ≤ rest.length := dropWhile_length_le _ _
        rw [heq] at h1
        simp only [List.length_cons] at h1 ⊢
        omega
      · cases h
  · cases h

/-- The scan is insensitive to surplus fuel: any fuel at least the input
length gives the same result (so `scanFuel` with fuel `l.length` is the
total left-to-right replacement). -/
theorem scanFuel_fuel_irrel (vars : VarStore) :
    ∀ (f1 : Nat), ∀ (f2 : Nat) (l : List Char), l.length ≤ f1 → l.length ≤ f2 →
      scanFuel vars f1 l = scanFuel vars f2 l := by
  intro f1
  induction f1 with
  | zero =>
    intro f2 l h1 _
    have : l = [] := List.length_eq_zero.1 (Nat.le_zero.1 h1)
    subst this
    cases f2 <;> rfl
  | succ f1 ih =>
    intro f2 l h1 h2
    match l with
    | [] => cases f2 <;> rfl
    | c :: rest =>
      match f2 with
      | 0 => simp at h2
      | g + 1 =>
        simp only [List.length_cons] at h1 h2
        cases htm : tryMatch (c :: rest) with
        | some pr =>
          obtain ⟨p, tail⟩ := pr
          have htail := tryMatch_tail_lt _ _ htm
          simp only [List.length_cons] at htail
          have := ih g tail (by omega) (by omega)
          simp [scanFuel, htm, this]
        | none =>
          have := ih g rest (by omega) (by omega)
          simp [scanFuel, htm, this]

/-- The placeholder listing is insensitive to surplus fuel. -/
theorem pathsFuel_fuel_irrel :
    ∀ (f1 : Nat), ∀ (f2 : Nat) (l : List Char), l.length ≤ f1 → l.length ≤ f2 →
      pathsFuel f1 l = pathsFuel f2 l := by
  intro f1
  induction f1 with
  | zero =>
    intro f2 l h1 _
    have : l = [] := List.length_eq_zero.1 (Nat.le_zero.1 h1)
    subst this
    cases f2 <;> rfl
  | succ f1 ih =>
    intro f2 l h1 h2
    match l with
    | [] => cases f2 <;> rfl
    | c :: rest =>
      match f2 with
      | 0 => simp at h2
      | g + 1 =>
        simp only [List.length_cons] at h1 h2
        cases htm : tryMatch (c :: rest) with
        | some pr =>
          obtain ⟨p, tail⟩ := pr
          have htail := tryMatch_tail_lt _ _ htm
          simp only [List.length_cons] at htail
          have := ih g tail (by omega) (by omega)
          simp [pathsFuel, htm, this]
        | none =>
          have := ih g rest (by omega) (by omega)
          simp [pathsFuel, htm, this]

/-- `resolveTemplate` raises a `TEMPLATE_ERROR` exactly when some matched
placeholder fails in the spec's sense. -/
theorem resolveTemplate_error_char (s : String) (vars : VarStore) :
    (∃ e, resolveTemplate s vars = .error e ∧ e.code = .TEMPLATE_ERROR) ↔
      (∃ p ∈ templatePaths s, specPlaceholderFails vars p = true) := by
  by_cases hb : containsBraces s.data = true
  · rcases scanFuel_cases vars s.data.length s.data with ⟨out, ho, hr⟩ | ⟨e, he, hc, hr⟩
    · constructor
      · rintro ⟨e, he, -⟩
        simp only [resolveTemplate, hb, if_true, ho] at he
        cases he
      · rintro ⟨p, hp, hf⟩
        exfalso
        have : specRenderFuel vars s.data.length s.data = none :=
          (specRenderFuel_none_iff vars s.data.length s.data).2 ⟨p, hp, hf⟩
        rw [this] at hr
        cases hr
    · constructor
      · rintro ⟨e', he', -⟩
        exact (specRenderFuel_none_iff vars s.data.length s.data).1 hr
      · rintro -
        refine ⟨e, ?_, hc⟩
        have he' : scanFuel vars s.length s.data = Except.error e := he
        simp [resolveTemplate, hb, he']
  · have hpaths : templatePaths s = [] := by
      by_contra hne
      exact hb (pathsFuel_ne_nil_containsBraces s.data.length s.data hne)
    constructor
    · rintro ⟨e, he, -⟩
      simp only [resolveTemplate, hb, Bool.false_eq_true, if_false] at he
      cases he
    · rintro ⟨p, hp, -⟩
      rw [hpaths] at hp
      cases hp

/-- When every matched placeholder succeeds, `resolveTemplate` returns the
spec-side rendering. -/
theorem resolveTemplate_ok_render (s : String) (vars : VarStore)
    (h : ∀ p ∈ templatePaths s, specPlaceholderFails vars p = false) :
    ∃ out, resolveTemplate s vars = .ok out ∧ specRender vars s = some out := by
  by_cases hb : containsBraces s.data = true
  · rcases scanFuel_cases vars s.data.length s.data with ⟨out, ho, hr⟩ | ⟨e, he, hc, hr⟩
    · have ho' : scanFuel vars s.length s.data = Except.ok out := ho
      have hr' : specRenderFuel vars s.length s.data = some out := hr
      refine ⟨String.mk out, by simp [resolveTemplate, hb, ho'], ?_⟩
      simp [specRender, hb, hr']
    · exfalso
      obtain ⟨p, hp, hf⟩ := (specRenderFuel_none_iff vars s.data.length s.data).1 hr
      rw [h p hp] at hf
      cases hf
  · exact ⟨s, by simp [resolveTemplate, hb], by simp [specRender, hb]⟩

/-- The first segment of a placeholder's dotted path. -/
def headSegment (p : String) : Option String :=
  (pathParts p).head?

/-- Own-property lookup on the variable store viewed as an object is
exactly store lookup. -/
theorem getOwnProp_obj (fields : VarStore) (m : String) :
    getOwnProp (.vObj fields) m = lookupVar fields m := rfl

/-- A placeholder whose first segment names an absent variable fails. -/
theorem specFails_of_head_missing (vars : VarStore) (p m : String)
    (hh : headSegment p = some m) (hm : lookupVar vars m = none) :
    specPlaceholderFails vars p = true := by
  unfold headSegment at hh
  cases hps : pathParts p with
  | nil => rw [hps] at hh; cases hh
  | cons a rest =>
    rw [hps] at hh
    simp only [List.head?_cons, Option.some.injEq] at hh
    subst hh
    unfold specPlaceholderFails
    rw [hps]
    simp [specWalk, getOwnProp_obj, hm]

/-- A placeholder whose first segment names a variable bound to `null` or
`undefined` fails (directly for a one-segment path, via a missing own
property for a longer one). -/
theorem specFails_of_head_empty (vars : VarStore) (p m : String) (v : JsValue)
    (hh : headSegment p = some m) (hm : lookupVar vars m = some v)
    (hv : isEmptyValue v = true) : specPlaceholderFails vars p = true := by
  unfold headSegment at hh
  cases hps : pathParts p with
  | nil => rw [hps] at hh; cases hh
  | cons a rest =>
    rw [hps] at hh
    simp only [List.head?_cons, Option.some.injEq] at hh
    subst hh
    unfold specPlaceholderFails
    rw [hps]
    simp only [specWalk, getOwnProp_obj, hm]
    cases rest with
    | nil => simp [specWalk, hv]
    | cons q more =>
      cases v with
      | vNull => simp [specWalk, getOwnProp]
      | vUndef => simp [specWalk, getOwnProp]
      | vBool b => cases hv
      | vNum n => cases hv
      | vStr s => cases hv
      | vObj fs => cases hv
      | vArr es => cases hv

/-! ## Lemmas about the orchestration loop -/

/-- Store write/read: a write is seen by a read of the same name and is
invisible to reads of any other name. -/
theorem lookupVar_setVar (n : String) (v : JsValue) (m : String) :
    ∀ vars : VarStore,
      lookupVar (setVar vars n v) m = if m = n then some v else lookupVar vars m := by
  intro vars
  induction vars with
  | nil =>
    by_cases hmn : m = n
    · subst hmn; simp [lookupVar, setVar]
    · have hnm : ¬n = m := fun h => hmn h.symm
      simp [lookupVar, setVar, hmn, hnm]
  | cons pair rest ih =>
    obtain ⟨a, w⟩ := pair
    simp only [setVar]
    by_cases han : a = n
    · subst han
      by_cases hmn : m = a
      · subst hmn; simp [lookupVar]
      · have hnm : ¬a = m := fun h => hmn h.symm
        simp [lookupVar, hmn, hnm]
    · simp only [han, if_false]
      by_cases ham : a = m
      · subst ham
        have hmn : ¬a = n := han
        simp [lookupVar, fun h : a = n => han h]
      · simp only [lookupVar, ham, if_false]
        exact ih

/-- Inversion of a successful loop iteration: the interrupt flag was
clear, resolution succeeded, the capability succeeded, the attribution
registers hold this step's index and resolved action, exactly one result
was appended, and the store was extended via the `saveAs` write (or left
unchanged). -/
theorem runStep_ok_inv {exec : Nat → Action → ExecOutcome} {timing : Nat → Int}
    {intr : Nat → Bool} {a : Action} {idx : Nat} {st st' : RunState}
    (h : runStep exec timing intr a idx st = .ok st') :
    intr idx = false ∧
    ∃ r data,
      resolveActionTemplates a st.vars = .ok r ∧
      exec idx r = .success data ∧
      st'.currentActionIndex = (idx : Int) ∧
      st'.currentResolvedAction = some r ∧
      st'.results = st.results ++
        [{ type := r.kind, ok := true, savedAs := saveAsTruthy a, data := data,
           index := idx, timingMs := timing idx }] ∧
      st'.vars = (match saveAsTruthy a with
        | some n => setVar st.vars n
            (getSavedValue r { type := r.kind, ok := true, savedAs := none, data := data })
        | none => st.vars) := by
  simp only [runStep] at h
  split at h
  · cases h
  · next hintr =>
    refine ⟨by simpa using hintr, ?_⟩
    split at h
    · cases h
    · next r hres =>
      split at h
      · cases h
      · next data hexec =>
        refine ⟨r, data, hres, hexec, ?_⟩
        cases hsv : saveAsTruthy a with
        | some n =>
          rw [hsv] at h
          simp only at h
          cases h
          simp
        | none =>
          rw [hsv] at h
          simp only at h
          cases h
          simp

/-- `runPrefix` distributes over list concatenation. -/
theorem runPrefix_append (exec : Nat → Action → ExecOutcome) (timing : Nat → Int)
    (intr : Nat → Bool) :
    ∀ (as bs : List Action) (idx : Nat) (st : RunState),
      runPrefix exec timing intr (as ++ bs) idx st =
        match runPrefix exec timing intr as idx st with
        | .ok st' => runPrefix exec timing intr bs (idx + as.length) st'
        | .error out => .error out := by
  intro as
  induction as with
  | nil => intro bs idx st; simp [runPrefix]
  | cons a rest ih =>
    intro bs idx st
    simp only [List.cons_append, runPrefix]
    cases hstep : runStep exec timing intr a idx st with
    | error out => rfl
    | ok st1 =>
      dsimp only
      simp only [List.append_eq]
      rw [ih bs (idx + 1) st1]
      have harith : idx + 1 + rest.length = idx + (rest.length + 1) := by omega
      rw [harith]
      rfl

/-- The loop is the prefix run of the whole list: success yields the final
results and store, failure yields the thrown report. -/
theorem runLoop_eq_runPrefix (exec : Nat → Action → ExecOutcome) (timing : Nat → Int)
    (intr : Nat → Bool) :
    ∀ (actions : List Action) (idx : Nat) (st : RunState),
      runLoop exec timing intr actions idx st =
        match runPrefix exec timing intr actions idx st with
        | .ok st' => .success st'.results st'.vars
        | .error out => out := by
  intro actions
  induction actions with
  | nil => intro idx st; rfl
  | cons a rest ih =>
    intro idx st
    simp only [runLoop, runPrefix]
    cases hstep : runStep exec timing intr a idx st with
    | error out => rfl
    | ok st1 => exact ih (idx + 1) st1

/-- A successful prefix run of `k` actions appends exactly `k` results. -/
theorem runPrefix_results_length {exec : Nat → Action → ExecOutcome} {timing : Nat → Int}
    {intr : Nat → Bool} :
    ∀ (as : List Action) (idx : Nat) (st st' : RunState),
      runPrefix exec timing intr as idx st = .ok st' →
      st'.results.length = st.results.length + as.length := by
  intro as
  induction as with
  | nil => intro idx st st' h; cases h; simp
  | cons a rest ih =>
    intro idx st st' h
    simp only [runPrefix] at h
    cases hstep : runStep exec timing intr a idx st with
    | error out => rw [hstep] at h; cases h
    | ok st1 =>
      rw [hstep] at h
      have h1 := (runStep_ok_inv hstep).2
      obtain ⟨r, data, -, -, -, -, hres, -⟩ := h1
      have := ih (idx + 1) st1 st' h
      rw [this, hres]
      simp
      omega

/-- After a successful nonempty prefix run the failure-attribution index
is the index of the last completed action; an empty run leaves the state
unchanged. -/
theorem runPrefix_state_info {exec : Nat → Action → ExecOutcome} {timing : Nat → Int}
    {intr : Nat → Bool} :
    ∀ (as : List Action) (idx : Nat) (st st' : RunState),
      runPrefix exec timing intr as idx st = .ok st' →
      (as = [] → st' = st) ∧
      (as ≠ [] → st'.currentActionIndex = (idx : Int) + as.length - 1) := by
  intro as
  induction as with
  | nil =>
    intro idx st st' h
    cases h
    constructor
    · intro _
      rfl
    · intro hne
      exact absurd rfl hne
  | cons a rest ih =>
    intro idx st st' h
    simp only [runPrefix] at h
    cases hstep : runStep exec timing intr a idx st with
    | error out => rw [hstep] at h; cases h
    | ok st1 =>
      rw [hstep] at h
      refine ⟨fun hcon => ?_, fun _ => ?_⟩
      · cases hcon
      rcases ih (idx + 1) st1 st' h with ⟨hnil, hcons⟩
      cases hrest : rest with
      | nil =>
        cases hrest
        have := hnil rfl
        subst this
        have := (runStep_ok_inv hstep).2
        obtain ⟨r, data, -, -, hidx, -, -, -⟩ := this
        rw [hidx]
        simp
      | cons b more =>
        cases hrest
        have := hcons (by simp)
        rw [this]
        simp only [List.length_cons]
        push_cast
        ring

/-- A prefix run touching no action that saves under `name` leaves the
binding of `name` unchanged. -/
theorem runPrefix_lookup_preserved {exec : Nat → Action → ExecOutcome} {timing : Nat → Int}
    {intr : Nat → Bool} :
    ∀ (as : List Action) (idx : Nat) (st st' : RunState) (name : String),
      (∀ b ∈ as, saveAsTruthy b ≠ some name) →
      runPrefix exec timing intr as idx st = .ok st' →
      lookupVar st'.vars name = lookupVar st.vars name := by
  intro as
  induction as with
  | nil => intro idx st st' name _ h; cases h; rfl
  | cons a rest ih =>
    intro idx st st' name hno h
    simp only [runPrefix] at h
    cases hstep : runStep exec timing intr a idx st with
    | error out => rw [hstep] at h; cases h
    | ok st1 =>
      rw [hstep] at h
      have hrest := ih (idx + 1) st1 st' name (fun b hb => hno b (by simp [hb])) h
      rw [hrest]
      obtain ⟨-, r, data, -, -, -, -, -, hvars⟩ := runStep_ok_inv hstep
      cases hsv : saveAsTruthy a with
      | none => rw [hsv] at hvars; rw [hvars]
      | some n =>
        rw [hsv] at hvars
        rw [hvars, lookupVar_setVar]
        have hne : name ≠ n := by
          intro hcon
          exact hno a (by simp) (by rw [hsv, hcon])
        simp [hne]

/-- Every binding present after a prefix run was either present before it
or written by the `saveAs` of one of its actions. -/
theorem runPrefix_vars_source {exec : Nat → Action → ExecOutcome} {timing : Nat → Int}
    {intr : Nat → Bool} :
    ∀ (as : List Action) (idx : Nat) (st st' : RunState) (m : String) (v : JsValue),
      runPrefix exec timing intr as idx st = .ok st' →
      lookupVar st'.vars m = some v →
      lookupVar st.vars m = some v ∨
        ∃ j, ∃ hj : j < as.length, saveAsTruthy (as.get ⟨j, hj⟩) = some m := by
  intro as
  induction as with
  | nil => intro idx st st' m v h hl; cases h; exact .inl hl
  | cons a rest ih =>
    intro idx st st' m v h hl
    simp only [runPrefix] at h
    cases hstep : runStep exec timing intr a idx st with
    | error out => rw [hstep] at h; cases h
    | ok st1 =>
      rw [hstep] at h
      rcases ih (idx + 1) st1 st' m v h hl with hbase | ⟨j, hj, hsv⟩
      · obtain ⟨-, r, data, -, -, -, -, -, hvars⟩ := runStep_ok_inv hstep
        cases hsva : saveAsTruthy a with
        | none =>
          rw [hsva] at hvars
          rw [hvars] at hbase
          exact .inl hbase
        | some n =>
          rw [hsva] at hvars
          rw [hvars, lookupVar_setVar] at hbase
          by_cases hmn : m = n
          · subst hmn
            exact .inr ⟨0, by simp, by simpa using hsva⟩
          · rw [if_neg hmn] at hbase
            exact .inl hbase
      · exact .inr ⟨j + 1, by simpa using Nat.succ_lt_succ hj, by simpa using hsv⟩

/-- The loop distributes over list concatenation. -/
theorem runLoop_append (exec : Nat → Action → ExecOutcome) (timing : Nat → Int)
    (intr : Nat → Bool) :
    ∀ (as bs : List Action) (idx : Nat) (st : RunState),
      runLoop exec timing intr (as ++ bs) idx st =
        match runPrefix exec timing intr as idx st with
        | .ok st' => runLoop exec timing intr bs (idx + as.length) st'
        | .error out => out := by
  intro as
  induction as with
  | nil => intro bs idx st; simp [runPrefix]
  | cons a rest ih =>
    intro bs idx st
    simp only [List.cons_append, runLoop, runPrefix]
    cases hstep : runStep exec timing intr a idx st with
    | error out => rfl
    | ok st1 =>
      dsimp only
      simp only [List.append_eq]
      rw [ih bs (idx + 1) st1]
      have harith : idx + 1 + rest.length = idx + (rest.length + 1) := by omega
      rw [harith]
      rfl

/-- After a successful prefix of the first `k` actions, the whole run is
decided by the step at index `k` and, on its success, the loop over the
remaining actions. -/
theorem runBrowser_decomp {exec : Nat → Action → ExecOutcome} {timing : Nat → Int}
    {intr : Nat → Bool} {actions : List Action} {k : Nat} {st' : RunState}
    (hk : k < actions.length)
    (hpre : runPrefix exec timing intr (actions.take k) 0 initState = .ok st') :
    runBrowser exec timing intr actions =
      match runStep exec timing intr (actions.get ⟨k, hk⟩) k st' with
      | .error out => out
      | .ok st2 => runLoop exec timing intr (actions.drop (k + 1)) (k + 1) st2 := by
  have hsplit : actions.take k ++ actions.drop k = actions := List.take_append_drop k actions
  have hlen : (actions.take k).length = k := by
    rw [List.length_take]
    omega
  have hdrop : actions.drop k = actions.get ⟨k, hk⟩ :: actions.drop (k + 1) := by
    rw [List.get_eq_getElem]
    exact List.drop_eq_getElem_cons hk
  unfold runBrowser
  conv_lhs => rw [← hsplit]
  rw [runLoop_append, hpre]
  simp only [hlen, Nat.zero_add]
  rw [hdrop]
  simp only [runLoop]

/-- A successful prefix run of `j + 1` actions decomposes into a prefix
run of `j` actions followed by one successful step, whose resolved action
becomes the recorded `currentResolvedAction`. -/
theorem runPrefix_take_succ_last {exec : Nat → Action → ExecOutcome} {timing : Nat → Int}
    {intr : Nat → Bool} {actions : List Action} {j : Nat} {st' : RunState}
    (hj : j < actions.length)
    (h : runPrefix exec timing intr (actions.take (j + 1)) 0 initState = .ok st') :
    ∃ stj r, runPrefix exec timing intr (actions.take j) 0 initState = .ok stj ∧
      resolveActionTemplates (actions.get ⟨j, hj⟩) stj.vars = .ok r ∧
      st'.currentResolvedAction = some r := by
  have hlen : (actions.take j).length = j := by
    rw [List.length_take]
    omega
  have htake : actions.take (j + 1) = actions.take j ++ [actions.get ⟨j, hj⟩] := by
    rw [List.get_eq_getElem]
    rw [List.take_succ]
    congr 1
    rw [List.getElem?_eq_getElem hj]
    rfl
  rw [htake, runPrefix_append] at h
  cases hpre : runPrefix exec timing intr (actions.take j) 0 initState with
  | error out => rw [hpre] at h; cases h
  | ok stj =>
    rw [hpre] at h
    simp only [hlen, Nat.zero_add] at h
    simp only [runPrefix] at h
    cases hstep : runStep exec timing intr (actions.get ⟨j, hj⟩) j stj with
    | error out => rw [hstep] at h; cases h
    | ok st2 =>
      rw [hstep] at h
      cases h
      obtain ⟨-, r, data, hres, -, -, hcur, -, -⟩ := runStep_ok_inv hstep
      exact ⟨stj, r, rfl, hres, hcur⟩

/-! ## Concrete fixtures for witnesses and counterexamples -/

/-- Per-action timing oracle reporting zero elapsed milliseconds. -/
def zeroTiming : Nat → Int := fun _ => 0

/-- Interrupt oracle: the flag is never set. -/
def noInterrupt : Nat → Bool := fun _ => false

/-- Interrupt oracle: the flag is first observed set at the top of loop
iteration 1. -/
def interruptAt1 : Nat → Bool := fun i => decide (1 ≤ i)

/-- Browser oracle: every action succeeds with a data record whose
`result` field is the step index plus one. -/
def stepExec : Nat → Action → ExecOutcome :=
  fun i _ => .success (some [("result", .vNum ((i : Int) + 1))])

/-- Browser oracle: every action succeeds with a data record whose
`result` field is `null`. -/
def nullExec : Nat → Action → ExecOutcome :=
  fun _ _ => .success (some [("result", .vNull)])

/-! ## Claims -/

/-- C2: the error classifier maps every raised failure to exactly one code
in priority order — a `CodexBrowserError` carrying an explicit code
(`INVALID_INPUT`, `TEMPLATE_ERROR`, `INTERRUPTED`) keeps it; otherwise a
browser timeout (`TimeoutError`) maps to `PLAYWRIGHT_TIMEOUT`; otherwise a
browser-originated error (name containing `playwright` case-insensitively)
maps to `PLAYWRIGHT_ERROR`; anything else maps to `UNKNOWN`. -/
theorem C2_errorClassifier (err : JsError) :
    (∀ c m, err = .codex ⟨c, m⟩ →
       c = .INVALID_INPUT ∨ c = .TEMPLATE_ERROR ∨ c = .INTERRUPTED →
       inferErrorCode err = c)
  ∧ (∀ n m, err = .generic n m → n = "TimeoutError" →
       inferErrorCode err = .PLAYWRIGHT_TIMEOUT)
  ∧ (∀ n m, err = .generic n m → n ≠ "TimeoutError" →
       containsSub "playwright".data (toLowerChars n.data) = true →
       inferErrorCode err = .PLAYWRIGHT_ERROR)
  ∧ (∀ n m, err = .generic n m → n ≠ "TimeoutError" →
       containsSub "playwright".data (toLowerChars n.data) = false →
       inferErrorCode err = .UNKNOWN)
  ∧ (∀ s, err = .nonError s → inferErrorCode err = .UNKNOWN) := by
  refine ⟨?_, ?_, ?_, ?_, ?_⟩
  · rintro c m rfl -
    rfl
  · rintro n m rfl rfl
    rfl
  · rintro n m rfl hne hsub
    simp [inferErrorCode, hne, hsub]
  · rintro n m rfl hne hsub
    simp [inferErrorCode, hne, hsub]
  · rintro s rfl
    rfl

/-- Witness for C2 at concrete errors of each class. -/
theorem C2_witness :
    inferErrorCode (.codex ⟨.TEMPLATE_ERROR, "boom"⟩) = .TEMPLATE_ERROR ∧
    inferErrorCode (.generic "TimeoutError" "slow") = .PLAYWRIGHT_TIMEOUT ∧
    inferErrorCode (.generic "PlaywrightError" "bad") = .PLAYWRIGHT_ERROR ∧
    inferErrorCode (.generic "TypeError" "bad") = .UNKNOWN ∧
    inferErrorCode (.nonError "thrown string") = .UNKNOWN :=
  ⟨(C2_errorClassifier _).1 .TEMPLATE_ERROR "boom" rfl (.inr (.inl rfl)),
   (C2_errorClassifier _).2.1 "TimeoutError" "slow" rfl rfl,
   (C2_errorClassifier _).2.2.1 "PlaywrightError" "bad" rfl (by decide) (by decide),
   (C2_errorClassifier _).2.2.2.1 "TypeError" "bad" rfl (by decide) (by decide),
   (C2_errorClassifier _).2.2.2.2 "thrown string" rfl⟩

/-- C8: a string containing no `{{` resolves to itself unchanged under any
variable store, and resolving such an already-resolved string a second
time yields the same string as resolving it once. -/
theorem C8_noPlaceholderIdentity (s : String) (vars : VarStore)
    (h : containsBraces s.data = false) :
    resolveTemplate s vars = .ok s ∧
    (match resolveTemplate s vars with
     | .ok t => resolveTemplate t vars
     | .error e => .error e) = resolveTemplate s vars := by
  have h1 : resolveTemplate s vars = .ok s := by
    simp [resolveTemplate, h]
  refine ⟨h1, ?_⟩
  rw [h1]
  exact h1

/-- Witness for C8 on a concrete placeholder-free string. -/
theorem C8_witness :
    containsBraces "hello {world}".data = false ∧
    resolveTemplate "hello {world}" [("x", .vNum 1)] = .ok "hello {world}" ∧
    (match resolveTemplate "hello {world}" [("x", .vNum 1)] with
     | .ok t => resolveTemplate t [("x", .vNum 1)]
     | .error e => .error e) = resolveTemplate "hello {world}" [("x", .vNum 1)] :=
  ⟨by decide,
   (C8_noPlaceholderIdentity "hello {world}" [("x", .vNum 1)] (by decide)).1,
   (C8_noPlaceholderIdentity "hello {world}" [("x", .vNum 1)] (by decide)).2⟩

/-- C4: for a string containing a placeholder, template resolution raises
a `TEMPLATE_ERROR` exactly when some placeholder's dotted path hits a
missing own property, or resolves to `null`/absent, or resolves to a
non-primitive; otherwise every placeholder is replaced by the string form
of its resolved scalar value (the spec-side rendering). -/
theorem C4_templateErrorCharacterization (s : String) (vars : VarStore)
    (hp : templatePaths s ≠ []) :
    ((∃ e, resolveTemplate s vars = .error e ∧ e.code = .TEMPLATE_ERROR) ↔
       ∃ p ∈ templatePaths s, specPlaceholderFails vars p = true)
  ∧ ((∀ p ∈ templatePaths s, specPlaceholderFails vars p = false) →
       ∃ out, resolveTemplate s vars = .ok out ∧ specRender vars s = some out) :=
  ⟨resolveTemplate_error_char s vars, resolveTemplate_ok_render s vars⟩

/-- Witness for C4 on a concrete two-placeholder template. -/
theorem C4_witness :
    templatePaths "a={{a}}, c={{ b.c }}!" ≠ [] ∧
    ((∃ e, resolveTemplate "a={{a}}, c={{ b.c }}!"
        [("a", .vNum 7), ("b", .vObj [("c", .vStr "z")])] = .error e ∧
        e.code = .TEMPLATE_ERROR) ↔
      ∃ p ∈ templatePaths "a={{a}}, c={{ b.c }}!",
        specPlaceholderFails [("a", .vNum 7), ("b", .vObj [("c", .vStr "z")])] p = true) :=
  ⟨by decide,
   (C4_templateErrorCharacterization "a={{a}}, c={{ b.c }}!"
     [("a", .vNum 7), ("b", .vObj [("c", .vStr "z")])] (by decide)).1⟩

/-- C6: template resolution for the action at index `i` observes only
variable-store entries written by actions at indices strictly below `i` —
every binding in the store reached by the first `i` actions comes from an
earlier action's `saveAs`, and a placeholder whose leading segment names a
variable not saved by any action below `i` fails with `TEMPLATE_ERROR`,
never silently resolves. -/
theorem C6_orderSensitivity (exec : Nat → Action → ExecOutcome) (timing : Nat → Int)
    (intr : Nat → Bool) (actions : List Action) (i : Nat) (st' : RunState)
    (hpre : runPrefix exec timing intr (actions.take i) 0 initState = .ok st') :
    (∀ m v, lookupVar st'.vars m = some v →
       ∃ j, ∃ hj1 : j < i, ∃ hj2 : j < actions.length,
         saveAsTruthy (actions.get ⟨j, hj2⟩) = some m)
  ∧ (∀ (s p m : String), p ∈ templatePaths s → headSegment p = some m →
       (∀ j (hj : j < actions.length), j < i →
          saveAsTruthy (actions.get ⟨j, hj⟩) ≠ some m) →
       ∃ e, resolveTemplate s st'.vars = .error e ∧ e.code = .TEMPLATE_ERROR) := by
  have ha : ∀ m v, lookupVar st'.vars m = some v →
      ∃ j, ∃ hj1 : j < i, ∃ hj2 : j < actions.length,
        saveAsTruthy (actions.get ⟨j, hj2⟩) = some m := by
    intro m v hl
    rcases runPrefix_vars_source (actions.take i) 0 initState st' m v hpre hl with
      hbase | ⟨j, hj, hsv⟩
    · cases hbase
    · have hji : j < i ∧ j < actions.length := by
        have := hj
        rw [List.length_take] at this
        omega
      refine ⟨j, hji.1, hji.2, ?_⟩
      rw [← hsv]
      congr 1
      simp [List.get_eq_getElem, List.getElem_take]
  refine ⟨ha, ?_⟩
  intro s p m hp hh hnone
  have hm : lookupVar st'.vars m = none := by
    cases hl : lookupVar st'.vars m with
    | none => rfl
    | some v =>
      obtain ⟨j, hj1, hj2, hsv⟩ := ha m v hl
      exact absurd hsv (hnone j hj2 hj1)
  exact (resolveTemplate_error_char s st'.vars).2
    ⟨p, hp, specFails_of_head_missing st'.vars p m hh hm⟩

/-- Witness for C6: after one action saving `x`, a placeholder naming the
not-yet-saved `y` fails with `TEMPLATE_ERROR`. -/
theorem C6_witness :
    ∃ e, resolveTemplate "{{y}}" [("x", .vNum 1)] = .error e ∧
      e.code = .TEMPLATE_ERROR :=
  (C6_orderSensitivity stepExec zeroTiming noInterrupt
      [.evaluate "1" (some "x"), .goto "{{y}}" none none none] 1
      { vars := [("x", .vNum 1)],
        results := [{ type := "evaluate", ok := true, savedAs := some "x",
                      data := some [("result", .vNum 1)], index := 0, timingMs := 0 }],
        currentActionIndex := 0,
        currentResolvedAction := some (.evaluate "1" (some "x")) }
      rfl).2 "{{y}}" "y" "y" (by decide) (by decide) (by decide)

/-- C7: a payload whose `actions` array is empty or has a structurally
invalid element is rejected by `parseInput` with an `INVALID_INPUT` error,
and `main` then produces a failure report with no step index, no action
and no partial results, without consulting the browser capability (no
session is launched, no action executes). -/
theorem C7_invalidInputRejectedEarly (fields : List (String × Json)) (items : List Json)
    (hact : lookupField fields "actions" = some (.arr items))
    (hbad : items = [] ∨ ∃ j e', (items.get? j).isSome ∧
        validateAction ((items.get? j).getD .null) j = .error e') :
    ∃ e, parseInput (.obj fields) = .error e ∧ e.code = .INVALID_INPUT ∧
      ∀ (exec : Nat → Action → ExecOutcome) (timing : Nat → Int) (intr : Nat → Bool),
        mainModel (.obj fields) exec timing intr =
          .early { code := .INVALID_INPUT, message := e.message, stepIndex := none,
                   action := none, resultsSoFar := none } := by
  have hstep : parseInput (.obj fields) =
      chk (validateActions items 0) fun actions =>
        if actions.length = 0 then
          .error ⟨.INVALID_INPUT, "actions must contain at least one entry"⟩
        else
          chk (validateOptions (lookupField fields "options")) fun options =>
            .ok { actions := actions, options := options } := by
    unfold parseInput
    rw [show ensureObject (.obj fields) "input" = .ok fields from rfl]
    simp only [chk]
    rw [hact]
  obtain ⟨e, hparse, hcode⟩ :
      ∃ e, parseInput (.obj fields) = .error e ∧ e.code = .INVALID_INPUT := by
    rcases hbad with rfl | ⟨j, e', hj, hv⟩
    · exact ⟨⟨.INVALID_INPUT, "actions must contain at least one entry"⟩,
        by rw [hstep]; rfl, rfl⟩
    · obtain ⟨e, hva, hc⟩ := validateActions_error_of_mem items 0
        ⟨j, e', hj, by simpa using hv⟩
      refine ⟨e, ?_, hc⟩
      rw [hstep, hva]
      rfl
  refine ⟨e, hparse, hcode, fun exec timing intr => ?_⟩
  unfold mainModel
  rw [hparse]
  dsimp only [serializeErrorBare]
  have hinf : inferErrorCode (.codex e) = e.code := rfl
  rw [hinf, hcode]

/-- Witness for C7 on the empty actions array. -/
theorem C7_witness :
    ∃ e, parseInput (.obj [("actions", .arr [])]) = .error e ∧
      e.code = .INVALID_INPUT ∧
      ∀ (exec : Nat → Action → ExecOutcome) (timing : Nat → Int) (intr : Nat → Bool),
        mainModel (.obj [("actions", .arr [])]) exec timing intr =
          .early { code := .INVALID_INPUT, message := e.message, stepIndex := none,
                   action := none, resultsSoFar := none } :=
  C7_invalidInputRejectedEarly [("actions", .arr [])] [] rfl (.inl rfl)

/-- C10: an `evaluate` action with `saveAs` whose script result is `null`
or `undefined` saves successfully — the result carries `savedAs` and the
name enters the store — yet every later placeholder whose leading segment
references that name fails with `TEMPLATE_ERROR`, because the stored value
is empty: the run can fail at a later step although the saving step
reported success. -/
theorem C10_emptySavePoisonsLaterTemplates (exec : Nat → Action → ExecOutcome)
    (timing : Nat → Int) (intr : Nat → Bool) (expr expr2 n : String) (idx : Nat)
    (st : RunState) (v : JsValue)
    (hv : v = .vNull ∨ v = .vUndef)
    (hn : n.isEmpty = false)
    (hintr : intr idx = false)
    (hres : resolveTemplate expr st.vars = .ok expr2)
    (hexec : exec idx (.evaluate expr2 (some n)) = .success (some [("result", v)])) :
    ∃ st', runStep exec timing intr (.evaluate expr (some n)) idx st = .ok st' ∧
      st'.results = st.results ++
        [{ type := "evaluate", ok := true, savedAs := some n,
           data := some [("result", v)], index := idx, timingMs := timing idx }] ∧
      lookupVar st'.vars n = some v ∧
      ∀ (s p : String), p ∈ templatePaths s → headSegment p = some n →
        ∃ e, resolveTemplate s st'.vars = .error e ∧ e.code = .TEMPLATE_ERROR := by
  have hresolve : resolveActionTemplates (.evaluate expr (some n)) st.vars =
      .ok (.evaluate expr2 (some n)) := by
    simp [resolveActionTemplates, hres]
  have hsvt : saveAsTruthy (.evaluate expr (some n)) = some n := by
    simp [saveAsTruthy, Action.saveAs, hn]
  cases hs : runStep exec timing intr (.evaluate expr (some n)) idx st with
  | error out =>
    exfalso
    simp only [runStep, hintr, Bool.false_eq_true, if_false, hresolve, hexec, hsvt] at hs
    cases hs
  | ok st' =>
    obtain ⟨-, r, data, hres', hexec', -, -, hresults, hvars⟩ := runStep_ok_inv hs
    rw [hresolve] at hres'
    cases hres'
    rw [hexec] at hexec'
    cases hexec'
    rw [hsvt] at hresults hvars
    have hlook : lookupVar st'.vars n = some v := by
      rw [hvars, lookupVar_setVar, if_pos rfl]
      rfl
    refine ⟨st', rfl, ?_, hlook, ?_⟩
    · rw [hresults]
      rfl
    · intro s p hp hh
      have hempty : isEmptyValue v = true := by
        rcases hv with rfl | rfl <;> rfl
      exact (resolveTemplate_error_char s st'.vars).2
        ⟨p, hp, specFails_of_head_empty st'.vars p n v hh hlook hempty⟩

/-- Witness for C10: a null evaluate result is saved, then `{{x}}` fails. -/
theorem C10_witness :
    ∃ st', runStep nullExec zeroTiming noInterrupt
        (.evaluate "document.q" (some "x")) 0 initState = .ok st' ∧
      st'.results = ([] : List ActionMetaResult) ++
        [{ type := "evaluate", ok := true, savedAs := some "x",
           data := some [("result", .vNull)], index := 0, timingMs := 0 }] ∧
      lookupVar st'.vars "x" = some .vNull ∧
      ∀ (s p : String), p ∈ templatePaths s → headSegment p = some "x" →
        ∃ e, resolveTemplate s st'.vars = .error e ∧ e.code = .TEMPLATE_ERROR :=
  C10_emptySavePoisonsLaterTemplates nullExec zeroTiming noInterrupt
    "document.q" "document.q" "x" 0 initState .vNull (.inl rfl) rfl rfl rfl rfl

/-- Counterexample to C1 as stated: with two actions both saving under
`x`, the first write binds `x` to `1`, yet after the second action the
binding is `2` — a later action declaring the same `saveAs` name does
change the value bound to the name (the store write is an unconditional
overwrite). -/
theorem C1_counterexample :
    runPrefix stepExec zeroTiming noInterrupt [.evaluate "1" (some "x")] 0 initState =
      .ok { vars := [("x", .vNum 1)],
            results := [{ type := "evaluate", ok := true, savedAs := some "x",
                          data := some [("result", .vNum 1)], index := 0, timingMs := 0 }],
            currentActionIndex := 0,
            currentResolvedAction := some (.evaluate "1" (some "x")) } ∧
    runBrowser stepExec zeroTiming noInterrupt
        [.evaluate "1" (some "x"), .evaluate "2" (some "x")] =
      .success
        [{ type := "evaluate", ok := true, savedAs := some "x",
           data := some [("result", .vNum 1)], index := 0, timingMs := 0 },
         { type := "evaluate", ok := true, savedAs := some "x",
           data := some [("result", .vNum 2)], index := 1, timingMs := 0 }]
        [("x", .vNum 2)] ∧
    JsValue.vNum 1 ≠ JsValue.vNum 2 :=
  ⟨rfl, rfl, by simp⟩

/-- C1 (amended): once an action's `saveAs` has written a name's value,
the binding is immutable for the remainder of the run **unless a later
action declares the same `saveAs` name**, in which case that action
overwrites it; through any sequence of successfully executed actions none
of which saves under the name, every lookup (including the own-property
read template resolution performs) observes the originally written
value. -/
theorem C1_writeOncePersistsUnlessReused (exec : Nat → Action → ExecOutcome)
    (timing : Nat → Int) (intr : Nat → Bool) (bs : List Action) (idx : Nat)
    (st st' : RunState) (name : String) (v : JsValue)
    (hv : lookupVar st.vars name = some v)
    (hnone : ∀ b ∈ bs, saveAsTruthy b ≠ some name)
    (hrun : runPrefix exec timing intr bs idx st = .ok st') :
    lookupVar st'.vars name = some v ∧
    readVarPath (.vObj st'.vars) [name] name = .ok v := by
  have hl := runPrefix_lookup_preserved bs idx st st' name hnone hrun
  rw [hv] at hl
  refine ⟨hl, ?_⟩
  simp [readVarPath, hl]

/-- Witness for C1 (amended): the binding of `x` survives a `wait` step
that saves nothing. -/
theorem C1_witness :
    lookupVar [("x", JsValue.vNum 1)] "x" = some (.vNum 1) ∧
    readVarPath (.vObj [("x", JsValue.vNum 1)]) ["x"] "x" = .ok (.vNum 1) :=
  C1_writeOncePersistsUnlessReused stepExec zeroTiming noInterrupt
    [.wait 5 none] 1
    { vars := [("x", .vNum 1)], results := [], currentActionIndex := 0,
      currentResolvedAction := none }
    { vars := [("x", .vNum 1)],
      results := [{ type := "wait", ok := true, savedAs := none,
                    data := some [("result", .vNum 2)], index := 1, timingMs := 0 }],
      currentActionIndex := 1, currentResolvedAction := some (.wait 5 none) }
    "x" (.vNum 1) rfl (by decide) rfl

/-- Counterexample to C5 as stated: action 0 (`evaluate`, `saveAs x`)
saves the inner result `1`, but after action 1 reuses `saveAs x` the value
visible to template resolution in later actions is `2`, not action 0's
saved value. -/
theorem C5_counterexample :
    runPrefix stepExec zeroTiming noInterrupt
        [.evaluate "1" (some "x"), .evaluate "2" (some "x")] 0 initState =
      .ok { vars := [("x", .vNum 2)],
            results := [{ type := "evaluate", ok := true, savedAs := some "x",
                          data := some [("result", .vNum 1)], index := 0, timingMs := 0 },
                        { type := "evaluate", ok := true, savedAs := some "x",
                          data := some [("result", .vNum 2)], index := 1, timingMs := 0 }],
            currentActionIndex := 1,
            currentResolvedAction := some (.evaluate "2" (some "x")) } ∧
    getSavedValue (.evaluate "1" (some "x"))
      { type := "evaluate", ok := true, savedAs := none,
        data := some [("result", .vNum 1)] } = .vNum 1 ∧
    readVarPath (.vObj [("x", .vNum 2)]) ["x"] "x" = .ok (.vNum 2) ∧
    JsValue.vNum 2 ≠ JsValue.vNum 1 :=
  ⟨rfl, rfl, rfl, by simp⟩

/-- C5 (amended): a successfully executed action with a truthy `saveAs`
stores exactly the engine-defined saved value — the inner `result` field
for an `evaluate` action, the full output record otherwise — and that
value stays visible to template resolution in every later action **as long
as no later action saves under the same name**. -/
theorem C5_savedValueVisibleUnlessReused (exec : Nat → Action → ExecOutcome)
    (timing : Nat → Int) (intr : Nat → Bool) (a : Action) (idx : Nat) (st : RunState)
    (r : Action) (data : List (String × JsValue)) (n : String)
    (hintr : intr idx = false)
    (hres : resolveActionTemplates a st.vars = .ok r)
    (hexec : exec idx r = .success (some data))
    (hsv : saveAsTruthy a = some n) :
    ∃ st', runStep exec timing intr a idx st = .ok st' ∧
      lookupVar st'.vars n = some (specSavedValue r data) ∧
      ∀ (bs : List Action) (idx2 : Nat) (st'' : RunState),
        (∀ b ∈ bs, saveAsTruthy b ≠ some n) →
        runPrefix exec timing intr bs idx2 st' = .ok st'' →
        readVarPath (.vObj st''.vars) [n] n = .ok (specSavedValue r data) := by
  cases hs : runStep exec timing intr a idx st with
  | error out =>
    exfalso
    simp only [runStep, hintr, Bool.false_eq_true, if_false, hres, hexec, hsv] at hs
    cases hs
  | ok st' =>
    obtain ⟨-, r', data', hres', hexec', -, -, -, hvars⟩ := runStep_ok_inv hs
    rw [hres] at hres'
    cases hres'
    rw [hexec] at hexec'
    cases hexec'
    rw [hsv] at hvars
    have hgv : getSavedValue r
        { type := r.kind, ok := true, savedAs := none, data := some data } =
        specSavedValue r data := by
      cases r <;> rfl
    have hlook : lookupVar st'.vars n = some (specSavedValue r data) := by
      rw [hvars, lookupVar_setVar, if_pos rfl, hgv]
    refine ⟨st', rfl, hlook, ?_⟩
    intro bs idx2 st'' hnone hrun
    have hpres := runPrefix_lookup_preserved bs idx2 st' st'' n hnone hrun
    rw [hlook] at hpres
    simp [readVarPath, hpres]

/-- Witness for C5 (amended): an evaluate save stores the inner result. -/
theorem C5_witness :
    ∃ st', runStep stepExec zeroTiming noInterrupt
        (.evaluate "7" (some "x")) 0 initState = .ok st' ∧
      lookupVar st'.vars "x" = some (.vNum 1) ∧
      ∀ (bs : List Action) (idx2 : Nat) (st'' : RunState),
        (∀ b ∈ bs, saveAsTruthy b ≠ some "x") →
        runPrefix stepExec zeroTiming noInterrupt bs idx2 st' = .ok st'' →
        readVarPath (.vObj st''.vars) ["x"] "x" = .ok (.vNum 1) :=
  C5_savedValueVisibleUnlessReused stepExec zeroTiming noInterrupt
    (.evaluate "7" (some "x")) 0 initState (.evaluate "7" (some "x"))
    [("result", .vNum 1)] "x" rfl rfl rfl rfl

/-- Counterexample to C3 as stated: in a two-action run where template
resolution of action 1 fails, the report carries `stepIndex = 1` and one
accumulated result, but the attached action is the *previous* step's
resolved action (`evaluate`), not the failing `goto` in any form — the
attribution register is only updated after a successful resolution, so a
resolution failure attaches a stale action. -/
theorem C3_counterexample :
    runBrowser stepExec zeroTiming noInterrupt
        [.evaluate "1+1" none, .goto "{{missing}}" none none none] =
      .failure (.codex ⟨.TEMPLATE_ERROR, "Template path not found: missing"⟩)
        .TEMPLATE_ERROR (some 1) (some (.evaluate "1+1" none))
        [{ type := "evaluate", ok := true, savedAs := none,
           data := some [("result", .vNum 1)], index := 0, timingMs := 0 }] ∧
    (∀ url w t sv, Action.evaluate "1+1" none ≠ Action.goto url w t sv) :=
  ⟨rfl, fun url w t sv h => by cases h⟩

/-- C3 (amended): when the first `k` actions succeed and action `k` is the
first to fail, the failure report always has `stepIndex = k` and exactly
`k` entries in `resultsSoFar`; the failing action is attached in its
resolved form when the failure occurs while executing action `k`, but when
template resolution of action `k` itself fails the attached action is the
resolved form of action `k-1` (absent when `k = 0`). -/
theorem C3_failureReportAtK (exec : Nat → Action → ExecOutcome) (timing : Nat → Int)
    (intr : Nat → Bool) (actions : List Action) (k : Nat) (hk : k < actions.length)
    (st' : RunState)
    (hpre : runPrefix exec timing intr (actions.take k) 0 initState = .ok st')
    (hintr : intr k = false) :
    (∀ r err, resolveActionTemplates (actions.get ⟨k, hk⟩) st'.vars = .ok r →
       exec k r = .failure err →
       runBrowser exec timing intr actions =
         .failure err (inferErrorCode err) (some k) (some r) st'.results ∧
       st'.results.length = k)
  ∧ (∀ e, resolveActionTemplates (actions.get ⟨k, hk⟩) st'.vars = .error e →
       runBrowser exec timing intr actions =
         .failure (.codex e) e.code (some k) st'.currentResolvedAction st'.results ∧
       st'.results.length = k ∧
       (k = 0 → st'.currentResolvedAction = none) ∧
       (∀ j, k = j + 1 → ∃ stj r, ∃ hj : j < actions.length,
          runPrefix exec timing intr (actions.take j) 0 initState = .ok stj ∧
          resolveActionTemplates (actions.get ⟨j, hj⟩) stj.vars = .ok r ∧
          st'.currentResolvedAction = some r)) := by
  have hlen : st'.results.length = k := by
    have h1 := runPrefix_results_length (actions.take k) 0 initState st' hpre
    rw [List.length_take] at h1
    have h2 : initState.results.length = 0 := rfl
    rw [h2] at h1
    omega
  have hdec := runBrowser_decomp hk hpre
  constructor
  · intro r err hres hexec
    refine ⟨?_, hlen⟩
    rw [hdec]
    have hres2 : resolveActionTemplates actions[k] st'.vars = Except.ok r := by
      simpa [List.get_eq_getElem] using hres
    have hstep : runStep exec timing intr (actions.get ⟨k, hk⟩) k st' =
        .error (.failure err (inferErrorCode err) (some k) (some r) st'.results) := by
      simp [runStep, hintr, hres2, hexec, mkFailureReport, Int.toNat_natCast,
        Int.natCast_nonneg]
    rw [hstep]
  · intro e hres
    refine ⟨?_, hlen, ?_, ?_⟩
    · rw [hdec]
      have hres2 : resolveActionTemplates actions[k] st'.vars = Except.error e := by
        simpa [List.get_eq_getElem] using hres
      have hstep : runStep exec timing intr (actions.get ⟨k, hk⟩) k st' =
          .error (.failure (.codex e) e.code (some k) st'.currentResolvedAction
            st'.results) := by
        simp [runStep, hintr, hres2, mkFailureReport, Int.toNat_natCast,
          Int.natCast_nonneg, inferErrorCode]
      rw [hstep]
    · rintro rfl
      have h0 : runPrefix exec timing intr [] 0 initState = .ok st' := by
        simpa using hpre
      simp only [runPrefix] at h0
      cases h0
      rfl
    · intro j hkj
      subst hkj
      obtain ⟨stj, r, h1, h2, h3⟩ := runPrefix_take_succ_last (by omega) hpre
      exact ⟨stj, r, by omega, h1, h2, h3⟩

/-- Witness for C3 (amended), resolution-failure case of the two-action
run of the counterexample. -/
theorem C3_witness :
    runBrowser stepExec zeroTiming noInterrupt
        [.evaluate "1+1" none, .goto "{{missing}}" none none none] =
      .failure (.codex ⟨.TEMPLATE_ERROR, "Template path not found: missing"⟩)
        .TEMPLATE_ERROR (some 1)
        (some (.evaluate "1+1" none))
        [{ type := "evaluate", ok := true, savedAs := none,
           data := some [("result", .vNum 1)], index := 0, timingMs := 0 }] ∧
    ([{ type := "evaluate", ok := true, savedAs := none,
        data := some [("result", JsValue.vNum 1)], index := 0,
        timingMs := 0 }] : List ActionMetaResult).length = 1 ∧
    (1 = 0 → (some (Action.evaluate "1+1" none) : Option Action) = none) ∧
    (∀ j, 1 = j + 1 → ∃ stj r, ∃ hj : j <
        ([.evaluate "1+1" none, .goto "{{missing}}" none none none] : List Action).length,
      runPrefix stepExec zeroTiming noInterrupt
          (([.evaluate "1+1" none, .goto "{{missing}}" none none none] : List Action).take j)
          0 initState = .ok stj ∧
      resolveActionTemplates
          (([.evaluate "1+1" none, .goto "{{missing}}" none none none] : List Action).get
            ⟨j, hj⟩) stj.vars = .ok r ∧
      (some (Action.evaluate "1+1" none) : Option Action) = some r) :=
  (C3_failureReportAtK stepExec zeroTiming noInterrupt
      [.evaluate "1+1" none, .goto "{{missing}}" none none none] 1 (by decide)
      { vars := [],
        results := [{ type := "evaluate", ok := true, savedAs := none,
                      data := some [("result", .vNum 1)], index := 0, timingMs := 0 }],
        currentActionIndex := 0,
        currentResolvedAction := some (.evaluate "1+1" none) }
      rfl rfl).2
    ⟨.TEMPLATE_ERROR, "Template path not found: missing"⟩ rfl

/-- C9: when the interrupt flag is first observed at the top of loop
iteration `i ≥ 1` after the first `i` actions completed, the Interrupted
failure report carries `stepIndex = i - 1` and the resolved form of action
`i - 1` (the last completed action); when the interrupt is observed before
any iteration (`i = 0`), the report carries no step index and no action. -/
theorem C9_interruptAttribution (exec : Nat → Action → ExecOutcome) (timing : Nat → Int)
    (intr : Nat → Bool) (actions : List Action) (i : Nat) (hi : i < actions.length)
    (st' : RunState)
    (hpre : runPrefix exec timing intr (actions.take i) 0 initState = .ok st')
    (hintr : intr i = true) :
    runBrowser exec timing intr actions =
      .failure (.codex ⟨.INTERRUPTED, "Interrupted"⟩) .INTERRUPTED
        (if i = 0 then none else some (i - 1)) st'.currentResolvedAction st'.results
  ∧ (i = 0 → st'.currentResolvedAction = none ∧ st'.results = [])
  ∧ (∀ j, i = j + 1 → ∃ stj r, ∃ hj : j < actions.length,
       runPrefix exec timing intr (actions.take j) 0 initState = .ok stj ∧
       resolveActionTemplates (actions.get ⟨j, hj⟩) stj.vars = .ok r ∧
       st'.currentResolvedAction = some r) := by
  have hdec := runBrowser_decomp hi hpre
  have hinfo := runPrefix_state_info (actions.take i) 0 initState st' hpre
  refine ⟨?_, ?_, ?_⟩
  · have hreg : (if 0 ≤ st'.currentActionIndex then some st'.currentActionIndex.toNat
        else none) = (if i = 0 then none else some (i - 1)) := by
      rcases Nat.eq_zero_or_pos i with rfl | hpos
      · have h0 : runPrefix exec timing intr [] 0 initState = .ok st' := by simpa using hpre
        simp only [runPrefix] at h0
        cases h0
        rfl
      · have hne : actions.take i ≠ [] := by
          intro hcon
          have hlen0 := congrArg List.length hcon
          rw [List.length_take] at hlen0
          simp only [List.length_nil] at hlen0
          omega
        have hidx := hinfo.2 hne
        rw [List.length_take, Nat.min_eq_left (Nat.le_of_lt hi)] at hidx
        have hidx2 : st'.currentActionIndex = (i : Int) - 1 := by
          rw [hidx]
          push_cast
          ring
        rw [hidx2]
        rw [if_pos (show (0 : Int) ≤ (i : Int) - 1 by omega)]
        rw [if_neg (by omega : ¬i = 0)]
        congr 1
        omega
    rw [hdec]
    have hstep : runStep exec timing intr (actions.get ⟨i, hi⟩) i st' =
        .error (mkFailureReport (.codex ⟨.INTERRUPTED, "Interrupted"⟩) st') := by
      simp [runStep, hintr]
    rw [hstep]
    dsimp only
    unfold mkFailureReport
    rw [hreg]
    rfl
  · rintro rfl
    have h0 : runPrefix exec timing intr [] 0 initState = .ok st' := by simpa using hpre
    simp only [runPrefix] at h0
    cases h0
    exact ⟨rfl, rfl⟩
  · intro j hij
    subst hij
    obtain ⟨stj, r, h1, h2, h3⟩ := runPrefix_take_succ_last (by omega) hpre
    exact ⟨stj, r, by omega, h1, h2, h3⟩

/-- Witness for C9: interrupt observed at the top of iteration 1 after one
completed action. -/
theorem C9_witness :
    runBrowser stepExec zeroTiming interruptAt1
        [.evaluate "1" none, .evaluate "2" none] =
      .failure (.codex ⟨.INTERRUPTED, "Interrupted"⟩) .INTERRUPTED
        (if 1 = 0 then none else some 0) (some (.evaluate "1" none))
        [{ type := "evaluate", ok := true, savedAs := none,
           data := some [("result", .vNum 1)], index := 0, timingMs := 0 }] :=
  (C9_interruptAttribution stepExec zeroTiming interruptAt1
      [.evaluate "1" none, .evaluate "2" none] 1 (by decide)
      { vars := [],
        results := [{ type := "evaluate", ok := true, savedAs := none,
                      data := some [("result", .vNum 1)], index := 0, timingMs := 0 }],
        currentActionIndex := 0,
        currentResolvedAction := some (.evaluate "1" none) }
      rfl rfl).1

end CodexBrowser
